import Mathlib

/-!
# Verification of the ISA-JSON loader and structural validator

A shallow embedding of `isatools/isajson.py`: the document loader `load`
(reference pools, characteristic/unit resolution, process input/output
resolution, two-pass previous/next linking, workflow-graph construction)
and the structural validator `validate_isajson` (generic tree walk with
object-reference collection and checking).

Conventions of the embedding:
* Python `dict` with string keys is an insertion-ordered association list
  (`Dict`); `d[k] = v` is `dictInsert`, `d[k]` lookup is `dictGet` /
  `dictFetch` (the latter returns the uncaught-`KeyError` outcome).
* Fallible Python code returns `Except LoadErr`; `LoadErr` distinguishes
  the exception class raised (`IOError`, `KeyError`, `TypeError`).
* JSON numbers are modelled as `Int`: the loader only branches on
  `isinstance(value, (int, float))` and passes numeric values through
  unchanged, so no floating-point semantics are needed.
* JSON objects consumed by the loader are typed records carrying exactly
  the keys the loader reads; keys it reads inside `try/except KeyError`
  are `Option` fields, keys it reads unconditionally are plain fields.
-/

/-- Python exception classes the loader can raise: `IOError(msg)` raised
explicitly, an uncaught `KeyError(key)` from a dict subscript, or an
uncaught `TypeError` from subscripting a non-dict value. -/
inductive LoadErr where
  | ioError : String → LoadErr
  | keyError : String → LoadErr
  | typeError : String → LoadErr
deriving DecidableEq

/-- A Python `dict` with string keys: insertion-ordered association list. -/
abbrev Dict (α : Type) : Type := List (String × α)

/-- `d[k]` as a total lookup: first entry whose key is `k`. -/
def dictGet {α : Type} (d : Dict α) (k : String) : Option α :=
  (d.find? (fun p => p.1 == k)).map (·.2)

/-- `d[k] = v`: replace the entry in place if the key exists, else append. -/
def dictInsert {α : Type} (d : Dict α) (k : String) (v : α) : Dict α :=
  if d.any (fun p => p.1 == k) then
    d.map (fun p => if p.1 == k then (k, v) else p)
  else d ++ [(k, v)]

/-- `d[k]` where a miss is an uncaught `KeyError`. -/
def dictFetch {α : Type} (d : Dict α) (k : String) : Except LoadErr α :=
  match dictGet d k with
  | some v => Except.ok v
  | none => Except.error (LoadErr.keyError k)

/-- Reading a key that the code accesses unconditionally on a JSON object in
which it may be absent: `KeyError` when missing. -/
def fetchOpt (o : Option String) (k : String) : Except LoadErr String :=
  match o with
  | some s => Except.ok s
  | none => Except.error (LoadErr.keyError k)

/-! ## JSON document shapes read by `load` -/

/-- An annotation object whose three keys are present
(`annotationValue` / `termAccession` / `termSource`). -/
structure AnnotationJson where
  annotationValue : String
  termAccession : String
  termSource : String
deriving DecidableEq

/-- An annotation-shaped JSON object with possibly missing keys: the shape
found in `value` positions of characteristics, factor values and parameter
values, where the loader's bare subscripts may raise `KeyError`. -/
structure AnnotationJsonOpt where
  annotationValue : Option String
  termAccession : Option String
  termSource : Option String
deriving DecidableEq

/-- A JSON value sitting in a `value` position: a string, a number
(`int`/`float`), a dict (annotation-shaped), or any other value
(list, `null`, ...) on which subscripting raises `TypeError`. -/
inductive ValueJson where
  | vStr : String → ValueJson
  | vNum : Int → ValueJson
  | vObj : AnnotationJsonOpt → ValueJson
  | vOther : ValueJson
deriving DecidableEq

structure CommentJson where
  name : String
  value : String
deriving DecidableEq

structure OntologySourceJson where
  name : String
  file : String
  version : String
  description : String
deriving DecidableEq

structure PublicationJson where
  pubMedID : String
  doi : String
  authorList : String
  title : String
  status : AnnotationJson
  comments : Option (List CommentJson)
deriving DecidableEq

structure PersonJson where
  lastName : String
  firstName : String
  midInitials : String
  email : String
  phone : String
  fax : String
  address : String
  affiliation : String
  roles : List AnnotationJson
  comments : Option (List CommentJson)
deriving DecidableEq

/-- A `characteristicCategories` entry: `@id` plus a `characteristicType`
annotation. -/
structure CharacteristicCategoryJson where
  id : String
  characteristicType : AnnotationJson
deriving DecidableEq

/-- A `unitCategories` entry. -/
structure UnitJson where
  id : String
  annotationValue : String
  termSource : String
  termAccession : String
deriving DecidableEq

structure ParameterJson where
  id : String
  parameterName : AnnotationJson
deriving DecidableEq

structure ComponentJson where
  componentName : String
  componentType : AnnotationJson
deriving DecidableEq

structure ProtocolJson where
  id : String
  name : String
  uri : String
  description : String
  version : String
  protocolType : AnnotationJson
  parameters : List ParameterJson
  components : List ComponentJson
deriving DecidableEq

structure FactorJson where
  id : String
  factorName : String
  factorType : AnnotationJson
deriving DecidableEq

/-- A characteristic object: `category` is the `@id` inside the category
reference, `unit` the `@id` inside the (possibly absent) unit reference. -/
structure CharacteristicJson where
  category : String
  value : ValueJson
  unit : Option String
deriving DecidableEq

structure FactorValueJson where
  category : String
  value : ValueJson
  unit : Option String
deriving DecidableEq

structure ParameterValueJson where
  category : String
  value : ValueJson
  unit : Option String
deriving DecidableEq

structure SourceJson where
  id : String
  name : String
  characteristics : List CharacteristicJson
deriving DecidableEq

structure SampleJson where
  id : String
  name : String
  derivesFrom : List String
  characteristics : List CharacteristicJson
  factorValues : List FactorValueJson
deriving DecidableEq

/-- A process object; `executesProtocol` is the `@id` inside the protocol
reference, `previousProcess` / `nextProcess` the `@id`s inside the optional
link references. -/
structure ProcessJson where
  id : String
  executesProtocol : String
  name : Option String
  comments : Option (List CommentJson)
  date : Option String
  performer : Option String
  parameterValues : List ParameterValueJson
  inputs : List String
  outputs : List String
  previousProcess : Option String
  nextProcess : Option String
deriving DecidableEq

structure DataFileJson where
  id : String
  name : String
  type : String
  comments : Option (List CommentJson)
deriving DecidableEq

structure OtherMaterialJson where
  id : String
  name : String
  type : String
  characteristics : List CharacteristicJson
deriving DecidableEq

structure AssayMaterialsJson where
  samples : List String
  otherMaterials : List OtherMaterialJson
deriving DecidableEq

structure AssayJson where
  measurementType : AnnotationJson
  technologyType : AnnotationJson
  technologyPlatform : String
  filename : String
  unitCategories : List UnitJson
  dataFiles : List DataFileJson
  materials : AssayMaterialsJson
  characteristicCategories : List CharacteristicCategoryJson
  processSequence : List ProcessJson
deriving DecidableEq

structure StudyMaterialsJson where
  sources : List SourceJson
  samples : List SampleJson
deriving DecidableEq

structure StudyJson where
  identifier : String
  title : String
  description : String
  submissionDate : String
  publicReleaseDate : String
  filename : String
  comments : Option (List CommentJson)
  characteristicCategories : List CharacteristicCategoryJson
  unitCategories : List UnitJson
  publications : List PublicationJson
  people : List PersonJson
  studyDesignDescriptors : List AnnotationJson
  protocols : List ProtocolJson
  factors : List FactorJson
  materials : StudyMaterialsJson
  processSequence : List ProcessJson
  assays : List AssayJson
deriving DecidableEq

structure InvestigationJson where
  identifier : String
  title : String
  description : String
  submissionDate : String
  publicReleaseDate : String
  comments : List CommentJson
  ontologySourceReferences : List OntologySourceJson
  publications : List PublicationJson
  people : List PersonJson
  studies : List StudyJson
deriving DecidableEq

/-! ## Entity model

Modelled from the spec: the entity classes (`isatools.model.v1`) are not under
`src/`; per the spec's data model (§3) they are plain value records populated
once by the loader, with no behaviour of their own. -/

structure Comment where
  name : String
  value : String
deriving DecidableEq

structure OntologySourceReference where
  name : String
  file : String
  version : String
  description : String
deriving DecidableEq

/-- `OntologyAnnotation`: term text, optional term source, accession, and a
local id when declared as a reusable category/unit. An empty-string term
source reference resolves to `none` ("no source"). -/
structure OntologyAnnotation where
  id : String
  name : String
  termSource : Option OntologySourceReference
  termAccession : String
deriving DecidableEq

structure Publication where
  pubmedId : String
  doi : String
  authorList : String
  title : String
  status : OntologyAnnotation
  comments : List Comment
deriving DecidableEq

structure Person where
  lastName : String
  firstName : String
  midInitials : String
  email : String
  phone : String
  fax : String
  address : String
  affiliation : String
  roles : List OntologyAnnotation
  comments : List Comment
deriving DecidableEq

structure ProtocolParameter where
  id : String
  parameterName : OntologyAnnotation
deriving DecidableEq

structure ProtocolComponent where
  name : String
  componentType : OntologyAnnotation
deriving DecidableEq

structure Protocol where
  id : String
  name : String
  uri : String
  description : String
  version : String
  protocolType : OntologyAnnotation
  parameters : List ProtocolParameter
  components : List ProtocolComponent
deriving DecidableEq

structure StudyFactor where
  id : String
  name : String
  factorType : OntologyAnnotation
deriving DecidableEq

/-- A value stored in a characteristic / factor value / parameter value:
the raw string, the raw number, a built annotation, or the raw JSON value
kept verbatim by fallback paths. -/
inductive CharValue where
  | cvStr : String → CharValue
  | cvNum : Int → CharValue
  | cvAnn : OntologyAnnotation → CharValue
  | cvRaw : ValueJson → CharValue
deriving DecidableEq

structure Characteristic where
  category : OntologyAnnotation
  value : CharValue
  unit : Option OntologyAnnotation
deriving DecidableEq

structure FactorValue where
  factorName : StudyFactor
  value : CharValue
  unit : Option OntologyAnnotation
deriving DecidableEq

structure ParameterValue where
  category : ProtocolParameter
  value : CharValue
  unit : Option OntologyAnnotation
deriving DecidableEq

structure Source where
  id : String
  name : String
  characteristics : List Characteristic
deriving DecidableEq

structure Sample where
  id : String
  name : String
  derivesFrom : List String
  characteristics : List Characteristic
  factorValues : List FactorValue
deriving DecidableEq

structure Material where
  id : String
  name : String
  type : String
  characteristics : List Characteristic
deriving DecidableEq

structure DataFile where
  id : String
  filename : String
  label : String
  comments : List Comment
deriving DecidableEq

/-- A process input/output: a `Source`, `Sample`, other `Material` or
`DataFile`. -/
inductive Node where
  | source : Source → Node
  | sample : Sample → Node
  | material : Material → Node
  | dataFile : DataFile → Node
deriving DecidableEq

/-- `isinstance(n, DataFile)`. -/
def Node.isDataFile : Node → Bool
  | Node.dataFile _ => true
  | _ => false

/-- A process; `prevProcess` / `nextProcess` hold the linked process's
`@id` (processes are canonical per `@id` in the process pool, so the id
identifies the linked object). -/
structure Process where
  id : String
  executesProtocol : Protocol
  comments : List Comment
  date : Option String
  performer : Option String
  parameterValues : List ParameterValue
  inputs : List Node
  outputs : List Node
  prevProcess : Option String
  nextProcess : Option String
  additionalProperties : Dict ValueJson
deriving DecidableEq

/-! ## Workflow graph builder (`_build_assay_graph`) -/

/-- A workflow-graph node: a process (canonical per `@id`) or a material
node (the entity value). -/
inductive GNode where
  | proc : String → GNode
  | node : Node → GNode
deriving DecidableEq

/-- `networkx.DiGraph.add_edge`: a no-op when the edge already exists. -/
def addEdge (g : List (GNode × GNode)) (a b : GNode) : List (GNode × GNode) :=
  if (a, b) ∈ g then g else g ++ [(a, b)]

/-- One iteration of `_build_assay_graph`'s loop body for one process:
outputs (minus data files) give `process → output` edges, else a
next-process link gives `process → next`; inputs give `input → process`
edges, else a previous-process link gives `prev → process`. -/
def graphStep (g : List (GNode × GNode)) (process : Process) : List (GNode × GNode) :=
  let g1 :=
    if process.nextProcess.isSome || !process.outputs.isEmpty then
      if !process.outputs.isEmpty then
        (process.outputs.filter (fun n => !(Node.isDataFile n))).foldl
          (fun g o => addEdge g (GNode.proc process.id) (GNode.node o)) g
      else
        addEdge g (GNode.proc process.id) (GNode.proc (process.nextProcess.getD ""))
    else g
  if process.prevProcess.isSome || !process.inputs.isEmpty then
    if !process.inputs.isEmpty then
      process.inputs.foldl (fun g i => addEdge g (GNode.node i) (GNode.proc process.id)) g1
    else
      addEdge g1 (GNode.proc (process.prevProcess.getD "")) (GNode.proc process.id)
  else g1

/-- `_build_assay_graph(process_sequence)`. -/
def buildAssayGraph (processSequence : List Process) : List (GNode × GNode) :=
  processSequence.foldl graphStep []

/-! ## Loader building blocks -/

/-- `term_source_dict`: ontology source name → source; `''` maps to `None`. -/
abbrev TermSourceDict := Dict (Option OntologySourceReference)

def loadComments (cs : List CommentJson) : List Comment :=
  cs.map (fun c => { name := c.name, value := c.value })

/-- Build an `OntologyAnnotation` from a fully-keyed annotation object;
the `term_source_dict[...]` subscript raises `KeyError` on an undeclared
term source name. -/
def ontologyAnnotationFromJson (tsd : TermSourceDict) (id : String) (aj : AnnotationJson) :
    Except LoadErr OntologyAnnotation := do
  let src ← dictFetch tsd aj.termSource
  Except.ok { id := id, name := aj.annotationValue, termSource := src,
              termAccession := aj.termAccession }

/-- Build an annotation from a possibly-malformed `value` object: a missing
key or an undeclared term source raises `KeyError` (the call sites decide
whether that `KeyError` is caught). -/
def buildAnnotationFromValue (tsd : TermSourceDict) (a : AnnotationJsonOpt) :
    Except LoadErr OntologyAnnotation := do
  let av ← fetchOpt a.annotationValue "annotationValue"
  let ts ← fetchOpt a.termSource "termSource"
  let src ← dictFetch tsd ts
  let ta ← fetchOpt a.termAccession "termAccession"
  Except.ok { id := "", name := av, termSource := src, termAccession := ta }

/-- The characteristic-category block (used verbatim for the assay pre-scan,
study-level categories and assay-level categories). -/
def buildCharacteristicCategory (tsd : TermSourceDict) (ccj : CharacteristicCategoryJson) :
    Except LoadErr OntologyAnnotation := do
  let src ← dictFetch tsd ccj.characteristicType.termSource
  Except.ok { id := ccj.id, name := ccj.characteristicType.annotationValue,
              termSource := src, termAccession := ccj.characteristicType.termAccession }

/-- The unit-category block (study-level and assay-level). -/
def buildUnit (tsd : TermSourceDict) (uj : UnitJson) : Except LoadErr OntologyAnnotation := do
  let src ← dictFetch tsd uj.termSource
  Except.ok { id := uj.id, name := uj.annotationValue, termSource := src,
              termAccession := uj.termAccession }

/-- The characteristic block shared by sources and samples: category lookup
is a bare subscript (`KeyError`); a dict-shaped value becomes an annotation,
with any inner `KeyError` converted to `IOError`; a numeric value requires a
resolvable unit, with any `KeyError` converted to `IOError`; a string is kept;
anything else is an `IOError`. -/
def buildCharacteristic (tsd : TermSourceDict) (categoriesDict unitsDict : Dict OntologyAnnotation)
    (cj : CharacteristicJson) : Except LoadErr Characteristic := do
  let category ← dictFetch categoriesDict cj.category
  match cj.value with
  | ValueJson.vObj a =>
    match buildAnnotationFromValue tsd a with
    | Except.ok oa => Except.ok { category := category, value := CharValue.cvAnn oa, unit := none }
    | Except.error _ => Except.error (LoadErr.ioError "Can't create value as annotation")
  | ValueJson.vNum n =>
    match cj.unit with
    | some uid =>
      match dictGet unitsDict uid with
      | some u => Except.ok { category := category, value := CharValue.cvNum n, unit := some u }
      | none => Except.error (LoadErr.ioError "Can't create unit annotation")
    | none => Except.error (LoadErr.ioError "Can't create unit annotation")
  | ValueJson.vStr s => Except.ok { category := category, value := CharValue.cvStr s, unit := none }
  | ValueJson.vOther => Except.error (LoadErr.ioError "Unexpected type in characteristic value")

/-- The other-material characteristic block: the value is subscripted
unconditionally, so a non-dict value raises `TypeError` and inner
`KeyError`s propagate uncaught; no unit is ever attached. -/
def buildMaterialCharacteristic (tsd : TermSourceDict) (categoriesDict : Dict OntologyAnnotation)
    (cj : CharacteristicJson) : Except LoadErr Characteristic := do
  let category ← dictFetch categoriesDict cj.category
  match cj.value with
  | ValueJson.vObj a => do
    let av ← fetchOpt a.annotationValue "annotationValue"
    let ts ← fetchOpt a.termSource "termSource"
    let src ← dictFetch tsd ts
    let ta ← fetchOpt a.termAccession "termAccession"
    Except.ok { category := category,
                value := CharValue.cvAnn { id := "", name := av, termSource := src, termAccession := ta },
                unit := none }
  | _ => Except.error (LoadErr.typeError "value is not subscriptable")

/-- Study-process input/output resolution. The source tries the source pool
inside `try/except KeyError` and then, in a `finally` block, tries the
sample pool the same way: a sample-pool hit therefore overwrites a
source-pool hit, and only when both miss is the `IOError` raised. -/
def resolveStudyIONode (sourcesDict : Dict Source) (samplesDict : Dict Sample)
    (word : String) (nid : String) : Except LoadErr Node :=
  let r0 : Option Node := (dictGet sourcesDict nid).map Node.source
  let r1 : Option Node :=
    match (dictGet samplesDict nid).map Node.sample with
    | some v => some v
    | none => r0
  match r1 with
  | some v => Except.ok v
  | none =>
    Except.error (LoadErr.ioError
      ("Could not find " ++ word ++ " node in sources or samples dicts: " ++ nid))

/-- Assay-process input/output resolution: samples, then (in nested
`finally` blocks) other materials, then data files — each later hit
overwriting an earlier one. -/
def resolveAssayIONode (samplesDict : Dict Sample) (otherMaterialsDict : Dict Material)
    (dataDict : Dict DataFile) (word : String) (nid : String) : Except LoadErr Node :=
  let r0 : Option Node := (dictGet samplesDict nid).map Node.sample
  let r1 : Option Node :=
    match (dictGet otherMaterialsDict nid).map Node.material with
    | some v => some v
    | none => r0
  let r2 : Option Node :=
    match (dictGet dataDict nid).map Node.dataFile with
    | some v => some v
    | none => r1
  match r2 with
  | some v => Except.ok v
  | none =>
    Except.error (LoadErr.ioError
      ("Could not find " ++ word ++ " node in samples or materials or data dicts: " ++ nid))

/-- Raw value kept verbatim by the `except TypeError` fallback paths. -/
def rawCharValue : ValueJson → CharValue
  | ValueJson.vStr s => CharValue.cvStr s
  | ValueJson.vNum n => CharValue.cvNum n
  | v => CharValue.cvRaw v

/-- The parameter-value block (identical in the study and assay process
loops): numeric values require category and unit lookups (bare subscripts,
`KeyError` uncaught); otherwise the category is looked up and the value is
built as an annotation when dict-shaped (inner `KeyError`s uncaught), while
a `TypeError` from subscripting a non-dict value falls back to the raw
value. -/
def buildParameterValue (tsd : TermSourceDict) (parametersDict : Dict ProtocolParameter)
    (unitsDict : Dict OntologyAnnotation) (pvj : ParameterValueJson) :
    Except LoadErr ParameterValue := do
  match pvj.value with
  | ValueJson.vNum n => do
    let cat ← dictFetch parametersDict pvj.category
    let uid ← fetchOpt pvj.unit "unit"
    let u ← dictFetch unitsDict uid
    Except.ok { category := cat, value := CharValue.cvNum n, unit := some u }
  | ValueJson.vObj a => do
    let cat ← dictFetch parametersDict pvj.category
    let av ← fetchOpt a.annotationValue "annotationValue"
    let ta ← fetchOpt a.termAccession "termAccession"
    let ts ← fetchOpt a.termSource "termSource"
    let src ← dictFetch tsd ts
    Except.ok { category := cat,
                value := CharValue.cvAnn { id := "", name := av, termSource := src, termAccession := ta },
                unit := none }
  | v => do
    let cat ← dictFetch parametersDict pvj.category
    Except.ok { category := cat, value := rawCharValue v, unit := none }

/-- The factor-value block: the factor lookup is a bare subscript; a
dict-shaped value becomes an annotation (inner `KeyError`s uncaught); the
`except TypeError` fallback keeps the raw value and requires a resolvable
unit (bare subscripts). -/
def buildFactorValue (tsd : TermSourceDict) (factorsDict : Dict StudyFactor)
    (unitsDict : Dict OntologyAnnotation) (fvj : FactorValueJson) :
    Except LoadErr FactorValue := do
  let factor ← dictFetch factorsDict fvj.category
  match fvj.value with
  | ValueJson.vObj a => do
    let av ← fetchOpt a.annotationValue "annotationValue"
    let ta ← fetchOpt a.termAccession "termAccession"
    let ts ← fetchOpt a.termSource "termSource"
    let src ← dictFetch tsd ts
    Except.ok { factorName := factor,
                value := CharValue.cvAnn { id := "", name := av, termSource := src, termAccession := ta },
                unit := none }
  | v => do
    let uid ← fetchOpt fvj.unit "unit"
    let u ← dictFetch unitsDict uid
    Except.ok { factorName := factor, value := rawCharValue v, unit := some u }

/-! ## Loader: investigation-level sections -/

/-- Build `term_source_dict` (seeded with `'' ↦ None`) and the ontology
source reference list. -/
def loadOntologySources (oss : List OntologySourceJson) :
    TermSourceDict × List OntologySourceReference :=
  oss.foldl
    (fun acc osj =>
      let osr : OntologySourceReference :=
        { name := osj.name, file := osj.file, version := osj.version,
          description := osj.description }
      (dictInsert acc.1 osr.name (some osr), acc.2 ++ [osr]))
    ([("", none)], [])

/-- One publication (investigation- or study-level: both read the status
annotation through `term_source_dict` and read comments inside
`try/except KeyError`). -/
def loadPublication (tsd : TermSourceDict) (pj : PublicationJson) :
    Except LoadErr Publication := do
  let status ← ontologyAnnotationFromJson tsd "" pj.status
  Except.ok { pubmedId := pj.pubMedID, doi := pj.doi, authorList := pj.authorList,
              title := pj.title, status := status,
              comments := loadComments (pj.comments.getD []) }

/-- An investigation-level person: roles resolve through
`term_source_dict`; the comments key is read unconditionally, so its
absence is an uncaught `KeyError`. -/
def loadInvPerson (tsd : TermSourceDict) (pj : PersonJson) : Except LoadErr Person := do
  let roles ← pj.roles.mapM (ontologyAnnotationFromJson tsd "")
  let cjs ←
    match pj.comments with
    | some cs => Except.ok cs
    | none => Except.error (LoadErr.keyError "comments")
  Except.ok { lastName := pj.lastName, firstName := pj.firstName,
              midInitials := pj.midInitials, email := pj.email, phone := pj.phone,
              fax := pj.fax, address := pj.address, affiliation := pj.affiliation,
              roles := roles, comments := loadComments cjs }

/-- A study-level person: same as investigation-level except comments are
read inside `try/except KeyError`. -/
def loadStudyPerson (tsd : TermSourceDict) (pj : PersonJson) : Except LoadErr Person := do
  let roles ← pj.roles.mapM (ontologyAnnotationFromJson tsd "")
  Except.ok { lastName := pj.lastName, firstName := pj.firstName,
              midInitials := pj.midInitials, email := pj.email, phone := pj.phone,
              fax := pj.fax, address := pj.address, affiliation := pj.affiliation,
              roles := roles, comments := loadComments (pj.comments.getD []) }

/-! ## Loader: shared pools and study sections -/

/-- The per-load pools (the eight dicts created before the studies loop,
shared across all studies and assays of one load). -/
structure Pools where
  samples : Dict Sample
  sources : Dict Source
  categories : Dict OntologyAnnotation
  protocols : Dict Protocol
  factors : Dict StudyFactor
  parameters : Dict ProtocolParameter
  units : Dict OntologyAnnotation
  processes : Dict Process
deriving DecidableEq

/-- One pre-scan insertion: build the category and put it in the pool
(the pre-scan does not append to any study's list). -/
def prescanStep (tsd : TermSourceDict) (catsDict : Dict OntologyAnnotation)
    (ccj : CharacteristicCategoryJson) : Except LoadErr (Dict OntologyAnnotation) := do
  let cc ← buildCharacteristicCategory tsd ccj
  pure (dictInsert catsDict cc.id cc)

/-- Pre-scan of one assay's characteristic-category declarations. -/
def prescanAssay (tsd : TermSourceDict) (catsDict : Dict OntologyAnnotation)
    (aj : AssayJson) : Except LoadErr (Dict OntologyAnnotation) :=
  aj.characteristicCategories.foldlM (prescanStep tsd) catsDict

/-- Pre-scan of one study's assays. -/
def prescanStudy (tsd : TermSourceDict) (catsDict : Dict OntologyAnnotation)
    (sj : StudyJson) : Except LoadErr (Dict OntologyAnnotation) :=
  sj.assays.foldlM (prescanAssay tsd) catsDict

/-- The pre-scan: every assay's characteristic-category declarations of
every study are inserted into the category pool before any study is
processed. -/
def prescanAssayCategories (tsd : TermSourceDict) (studies : List StudyJson) :
    Except LoadErr (Dict OntologyAnnotation) :=
  studies.foldlM (prescanStudy tsd) []

/-- One characteristic-category declaration of a study/assay scope: append
to the enclosing study's list and insert into the category pool. -/
def characteristicCategoryStep (tsd : TermSourceDict)
    (acc : List OntologyAnnotation × Dict OntologyAnnotation)
    (ccj : CharacteristicCategoryJson) :
    Except LoadErr (List OntologyAnnotation × Dict OntologyAnnotation) := do
  let cc ← buildCharacteristicCategory tsd ccj
  pure (acc.1 ++ [cc], dictInsert acc.2 cc.id cc)

/-- Characteristic-category declarations of one scope: appended to a list
(the enclosing study's) and inserted into the category pool. -/
def studyCharacteristicCategories (tsd : TermSourceDict) (cats : Dict OntologyAnnotation)
    (ccjs : List CharacteristicCategoryJson) :
    Except LoadErr (List OntologyAnnotation × Dict OntologyAnnotation) :=
  ccjs.foldlM (characteristicCategoryStep tsd) ([], cats)

/-- One unit-category declaration: build and insert into the unit pool. -/
def unitStep (tsd : TermSourceDict) (ud : Dict OntologyAnnotation) (uj : UnitJson) :
    Except LoadErr (Dict OntologyAnnotation) := do
  let u ← buildUnit tsd uj
  pure (dictInsert ud u.id u)

/-- Unit-category declarations of one scope (study or assay): inserted into
the unit pool only. -/
def studyUnitCategories (tsd : TermSourceDict) (units : Dict OntologyAnnotation)
    (ujs : List UnitJson) : Except LoadErr (Dict OntologyAnnotation) :=
  ujs.foldlM (unitStep tsd) units

def buildProtocolParameter (tsd : TermSourceDict) (pj : ParameterJson) :
    Except LoadErr ProtocolParameter := do
  let pn ← ontologyAnnotationFromJson tsd "" pj.parameterName
  Except.ok { id := pj.id, parameterName := pn }

def buildProtocolComponent (tsd : TermSourceDict) (cj : ComponentJson) :
    Except LoadErr ProtocolComponent := do
  let ct ← ontologyAnnotationFromJson tsd "" cj.componentType
  Except.ok { name := cj.componentName, componentType := ct }

/-- The protocols section of a study: protocols are appended to the study
list and inserted into the protocol pool; their parameters are inserted
into the parameter pool. -/
def studyProtocols (tsd : TermSourceDict) (protocolsDict : Dict Protocol)
    (parametersDict : Dict ProtocolParameter) (pjs : List ProtocolJson) :
    Except LoadErr (List Protocol × Dict Protocol × Dict ProtocolParameter) :=
  pjs.foldlM
    (fun acc pj => do
      let pt ← ontologyAnnotationFromJson tsd "" pj.protocolType
      let prm ← pj.parameters.foldlM
        (fun a prmj => do
          let p ← buildProtocolParameter tsd prmj
          pure (a.1 ++ [p], dictInsert a.2 p.id p))
        (([] : List ProtocolParameter), acc.2.2)
      let components ← pj.components.mapM (buildProtocolComponent tsd)
      let protocol : Protocol :=
        { id := pj.id, name := pj.name, uri := pj.uri, description := pj.description,
          version := pj.version, protocolType := pt, parameters := prm.1,
          components := components }
      pure (acc.1 ++ [protocol], dictInsert acc.2.1 protocol.id protocol, prm.2))
    ([], protocolsDict, parametersDict)

/-- The factors section of a study. -/
def studyFactors (tsd : TermSourceDict) (factorsDict : Dict StudyFactor)
    (fjs : List FactorJson) : Except LoadErr (List StudyFactor × Dict StudyFactor) :=
  fjs.foldlM
    (fun acc fj => do
      let ft ← ontologyAnnotationFromJson tsd "" fj.factorType
      let f : StudyFactor := { id := fj.id, name := fj.factorName, factorType := ft }
      pure (acc.1 ++ [f], dictInsert acc.2 f.id f))
    ([], factorsDict)

/-- One source: the stored name is the document's name field with its first
7 characters dropped. -/
def buildSource (tsd : TermSourceDict) (cats units : Dict OntologyAnnotation)
    (sj : SourceJson) : Except LoadErr Source := do
  let chars ← sj.characteristics.mapM (buildCharacteristic tsd cats units)
  Except.ok { id := sj.id, name := sj.name.drop 7, characteristics := chars }

def studySources (tsd : TermSourceDict) (cats units : Dict OntologyAnnotation)
    (sourcesDict : Dict Source) (sjs : List SourceJson) :
    Except LoadErr (List Source × Dict Source) :=
  sjs.foldlM
    (fun acc sj => do
      let s ← buildSource tsd cats units sj
      pure (acc.1 ++ [s], dictInsert acc.2 s.id s))
    ([], sourcesDict)

/-- One sample: name drops its first 7 characters; `derivesFrom` is stored
as the raw identifiers. -/
def buildSample (tsd : TermSourceDict) (cats units : Dict OntologyAnnotation)
    (factorsDict : Dict StudyFactor) (sj : SampleJson) : Except LoadErr Sample := do
  let chars ← sj.characteristics.mapM (buildCharacteristic tsd cats units)
  let fvs ← sj.factorValues.mapM (buildFactorValue tsd factorsDict units)
  Except.ok { id := sj.id, name := sj.name.drop 7, derivesFrom := sj.derivesFrom,
              characteristics := chars, factorValues := fvs }

def studySamples (tsd : TermSourceDict) (cats units : Dict OntologyAnnotation)
    (factorsDict : Dict StudyFactor) (samplesDict : Dict Sample)
    (sjs : List SampleJson) : Except LoadErr (List Sample × Dict Sample) :=
  sjs.foldlM
    (fun acc sj => do
      let s ← buildSample tsd cats units factorsDict sj
      pure (acc.1 ++ [s], dictInsert acc.2 s.id s))
    ([], samplesDict)

/-- First pass over one study process: protocol reference (bare subscript),
optional comments/date/performer, parameter values, then inputs and outputs
through `resolveStudyIONode`. -/
def buildStudyProcess (tsd : TermSourceDict) (protocolsDict : Dict Protocol)
    (parametersDict : Dict ProtocolParameter) (unitsDict : Dict OntologyAnnotation)
    (sourcesDict : Dict Source) (samplesDict : Dict Sample) (pj : ProcessJson) :
    Except LoadErr Process := do
  let protocol ← dictFetch protocolsDict pj.executesProtocol
  let pvs ← pj.parameterValues.mapM (buildParameterValue tsd parametersDict unitsDict)
  let inputs ← pj.inputs.mapM (resolveStudyIONode sourcesDict samplesDict "input")
  let outputs ← pj.outputs.mapM (resolveStudyIONode sourcesDict samplesDict "output")
  Except.ok { id := pj.id, executesProtocol := protocol,
              comments := loadComments (pj.comments.getD []),
              date := pj.date, performer := pj.performer, parameterValues := pvs,
              inputs := inputs, outputs := outputs, prevProcess := none,
              nextProcess := none, additionalProperties := [] }

def studyProcesses (tsd : TermSourceDict) (protocolsDict : Dict Protocol)
    (parametersDict : Dict ProtocolParameter) (unitsDict : Dict OntologyAnnotation)
    (sourcesDict : Dict Source) (samplesDict : Dict Sample)
    (processDict : Dict Process) (pjs : List ProcessJson) :
    Except LoadErr (List Process × Dict Process) :=
  pjs.foldlM
    (fun acc pj => do
      let p ← buildStudyProcess tsd protocolsDict parametersDict unitsDict
        sourcesDict samplesDict pj
      pure (acc.1 ++ [p], dictInsert acc.2 p.id p))
    ([], processDict)

/-- The second pass over a process sequence: set the previous/next links.
Every lookup sits in `try/except KeyError: pass`, so a `previousProcess` /
`nextProcess` reference naming an id absent from the process pool is
silently skipped and the link left unset. -/
def linkProcesses (processDict : Dict Process) (pjs : List ProcessJson) : Dict Process :=
  pjs.foldl
    (fun pd pj =>
      let pd1 :=
        match pj.previousProcess with
        | some prevId =>
          match dictGet pd pj.id, dictGet pd prevId with
          | some p, some _ => dictInsert pd pj.id { p with prevProcess := some prevId }
          | _, _ => pd
        | none => pd
      match pj.nextProcess with
      | some nextId =>
        match dictGet pd1 pj.id, dictGet pd1 nextId with
        | some p, some _ => dictInsert pd1 pj.id { p with nextProcess := some nextId }
        | _, _ => pd1
      | none => pd1)
    processDict

/-- The process list and the process pool alias the same objects in the
source, so after the linking pass the sequence reflects the pool's state
(process `@id`s are unique per document, making the pool entry canonical). -/
def refreshProcesses (pd : Dict Process) (seq : List Process) : List Process :=
  seq.map (fun p => (dictGet pd p.id).getD p)

/-! ## Loader: assay sections -/

/-- One data file: name and label are stored unmodified; inserted into the
assay's data dict and appended to its list. -/
def dataFileStep (acc : List DataFile × Dict DataFile) (dj : DataFileJson) :
    List DataFile × Dict DataFile :=
  let df : DataFile :=
    { id := dj.id, filename := dj.name, label := dj.type,
      comments := loadComments (dj.comments.getD []) }
  (acc.1 ++ [df], dictInsert acc.2 df.id df)

/-- Data files of one assay: a fresh dict per assay; names are stored
unmodified. -/
def loadDataFiles (djs : List DataFileJson) : List DataFile × Dict DataFile :=
  djs.foldl dataFileStep ([], [])

/-- Python `str.startswith`, computable by the kernel: character-list
comparison of the leading segment. -/
def startsWithStr (s pre : String) : Bool :=
  s.data.take pre.data.length == pre.data

/-- One other material: the stored name drops `labeledextract-` (15
characters) when the document name starts with it, else its first 8
characters. -/
def buildMaterial (tsd : TermSourceDict) (cats : Dict OntologyAnnotation)
    (mj : OtherMaterialJson) : Except LoadErr Material := do
  let materialName :=
    if startsWithStr mj.name "labeledextract-" then mj.name.drop 15 else mj.name.drop 8
  let chars ← mj.characteristics.mapM (buildMaterialCharacteristic tsd cats)
  Except.ok { id := mj.id, name := materialName, type := mj.type,
              characteristics := chars }

def assayOtherMaterials (tsd : TermSourceDict) (cats : Dict OntologyAnnotation)
    (mjs : List OtherMaterialJson) : Except LoadErr (List Material × Dict Material) :=
  mjs.foldlM
    (fun acc mj => do
      let m ← buildMaterial tsd cats mj
      pure (acc.1 ++ [m], dictInsert acc.2 m.id m))
    ([], [])

/-- `process.additional_properties[label] = v`. -/
def addProp (process : Process) (label : String) (v : ValueJson) : Process :=
  { process with
    additionalProperties := dictInsert process.additionalProperties label v }

/-- The hard-coded protocol-type special cases that stash the process name
under a labelled additional property (the name key is only read when a
branch matches). -/
def assayAdditionalName (process : Process) (technologyTypeName : String)
    (pj : ProcessJson) : Except LoadErr Process :=
  if process.executesProtocol.protocolType.name == "data collection" &&
      technologyTypeName == "DNA microarray" then do
    let n ← fetchOpt pj.name "name"
    pure (addProp process "Scan Name" (ValueJson.vStr n))
  else if process.executesProtocol.protocolType.name == "nucleic acid sequencing" then do
    let n ← fetchOpt pj.name "name"
    pure (addProp process "Assay Name" (ValueJson.vStr n))
  else if process.executesProtocol.protocolType.name == "nucleic acid hybridization" then do
    let n ← fetchOpt pj.name "name"
    pure (addProp process "Hybridization Assay Name" (ValueJson.vStr n))
  else if process.executesProtocol.protocolType.name == "data transformation" then do
    let n ← fetchOpt pj.name "name"
    pure (addProp process "Data Transformation Name" (ValueJson.vStr n))
  else if process.executesProtocol.protocolType.name == "data normalization" then do
    let n ← fetchOpt pj.name "name"
    pure (addProp process "Normalization Name" (ValueJson.vStr n))
  else pure process

/-- Parameter values of one assay process: the reserved
`#parameter/Array_Design_REF` category is diverted into additional
properties with the raw value; all others follow the shared
parameter-value block. -/
def assayProcessParameterValues (tsd : TermSourceDict)
    (parametersDict : Dict ProtocolParameter) (unitsDict : Dict OntologyAnnotation)
    (process : Process) (pvjs : List ParameterValueJson) : Except LoadErr Process :=
  pvjs.foldlM
    (fun p pvj =>
      if pvj.category == "#parameter/Array_Design_REF" then
        pure (addProp p "Array Design REF" pvj.value)
      else do
        let pv ← buildParameterValue tsd parametersDict unitsDict pvj
        pure { p with parameterValues := p.parameterValues ++ [pv] })
    process

/-- First pass over one assay process: protocol reference, comments, the
name special cases, inputs/outputs through `resolveAssayIONode`, then
parameter values. Assay processes never read date/performer. -/
def buildAssayProcess (tsd : TermSourceDict) (protocolsDict : Dict Protocol)
    (parametersDict : Dict ProtocolParameter) (unitsDict : Dict OntologyAnnotation)
    (samplesDict : Dict Sample) (otherMaterialsDict : Dict Material)
    (dataDict : Dict DataFile) (technologyTypeName : String) (pj : ProcessJson) :
    Except LoadErr Process := do
  let protocol ← dictFetch protocolsDict pj.executesProtocol
  let p0 : Process :=
    { id := pj.id, executesProtocol := protocol,
      comments := loadComments (pj.comments.getD []), date := none,
      performer := none, parameterValues := [], inputs := [], outputs := [],
      prevProcess := none, nextProcess := none, additionalProperties := [] }
  let p1 ← assayAdditionalName p0 technologyTypeName pj
  let inputs ← pj.inputs.mapM
    (resolveAssayIONode samplesDict otherMaterialsDict dataDict "input")
  let outputs ← pj.outputs.mapM
    (resolveAssayIONode samplesDict otherMaterialsDict dataDict "output")
  assayProcessParameterValues tsd parametersDict unitsDict
    { p1 with inputs := inputs, outputs := outputs } pj.parameterValues

/-- The assay process loop. In the source the second (linking) pass and the
graph rebuild are nested inside the first-pass loop, so they rerun after
every process is appended; links to processes not yet in the pool are
skipped by that pass's `except KeyError: pass` and picked up by a later
rerun, so the final iteration's links and graph are the ones kept. -/
def assayProcesses (tsd : TermSourceDict) (protocolsDict : Dict Protocol)
    (parametersDict : Dict ProtocolParameter) (unitsDict : Dict OntologyAnnotation)
    (samplesDict : Dict Sample) (otherMaterialsDict : Dict Material)
    (dataDict : Dict DataFile) (technologyTypeName : String)
    (processDict : Dict Process) (pjs : List ProcessJson) :
    Except LoadErr (List Process × Dict Process × List (GNode × GNode)) :=
  pjs.foldlM
    (fun acc pj => do
      let p ← buildAssayProcess tsd protocolsDict parametersDict unitsDict
        samplesDict otherMaterialsDict dataDict technologyTypeName pj
      let pd1 := dictInsert acc.2.1 p.id p
      let pd2 := linkProcesses pd1 pjs
      let seq2 := refreshProcesses pd2 (acc.1 ++ [p])
      pure (seq2, pd2, buildAssayGraph seq2))
    ([], processDict, [])

/-- The built assay. -/
structure Assay where
  measurementType : OntologyAnnotation
  technologyType : OntologyAnnotation
  technologyPlatform : String
  filename : String
  dataFiles : List DataFile
  samples : List Sample
  otherMaterials : List Material
  processSequence : List Process
  graph : List (GNode × GNode)
deriving DecidableEq

/-- One assay, in source order: measurement/technology annotations, unit
categories (into the shared unit pool), data files (fresh dict), sample
references (bare subscripts into the shared sample pool), characteristic
categories (into the shared category pool, appended to the study's list),
other materials (fresh dict), then processes. Returns the assay, the
updated pools and the categories to append to the study. -/
def loadAssay (tsd : TermSourceDict) (pools : Pools) (aj : AssayJson) :
    Except LoadErr (Assay × Pools × List OntologyAnnotation) := do
  let mt ← ontologyAnnotationFromJson tsd "" aj.measurementType
  let tt ← ontologyAnnotationFromJson tsd "" aj.technologyType
  let units1 ← studyUnitCategories tsd pools.units aj.unitCategories
  let dfs := loadDataFiles aj.dataFiles
  let assaySamples ← aj.materials.samples.mapM (fun sid => dictFetch pools.samples sid)
  let cc ← studyCharacteristicCategories tsd pools.categories aj.characteristicCategories
  let om ← assayOtherMaterials tsd cc.2 aj.materials.otherMaterials
  let pr ← assayProcesses tsd pools.protocols pools.parameters units1 pools.samples
    om.2 dfs.2 tt.name pools.processes aj.processSequence
  Except.ok
    ({ measurementType := mt, technologyType := tt,
       technologyPlatform := aj.technologyPlatform, filename := aj.filename,
       dataFiles := dfs.1, samples := assaySamples, otherMaterials := om.1,
       processSequence := pr.1, graph := pr.2.2 },
     { pools with units := units1, categories := cc.2, processes := pr.2.1 },
     cc.1)

def loadAssays (tsd : TermSourceDict) (pools : Pools) (ajs : List AssayJson) :
    Except LoadErr (List Assay × Pools × List OntologyAnnotation) :=
  ajs.foldlM
    (fun acc aj => do
      let r ← loadAssay tsd acc.2.1 aj
      pure (acc.1 ++ [r.1], r.2.1, acc.2.2 ++ r.2.2))
    ([], pools, [])

/-- The built study. -/
structure Study where
  identifier : String
  title : String
  description : String
  submissionDate : String
  publicReleaseDate : String
  filename : String
  comments : List Comment
  characteristicCategories : List OntologyAnnotation
  publications : List Publication
  contacts : List Person
  designDescriptors : List OntologyAnnotation
  protocols : List Protocol
  factors : List StudyFactor
  sources : List Source
  samples : List Sample
  processSequence : List Process
  graph : List (GNode × GNode)
  assays : List Assay
deriving DecidableEq

/-- One study, in source order: comments, characteristic categories, unit
categories, publications, people, design descriptors, protocols, factors,
sources, samples, processes (first pass), the linking second pass, the
workflow graph, then the assays. The study's graph is built from the
process sequence as it stands before the assays are processed. -/
def loadStudy (tsd : TermSourceDict) (pools : Pools) (sj : StudyJson) :
    Except LoadErr (Study × Pools) := do
  let cc ← studyCharacteristicCategories tsd pools.categories sj.characteristicCategories
  let units1 ← studyUnitCategories tsd pools.units sj.unitCategories
  let publications ← sj.publications.mapM (loadPublication tsd)
  let contacts ← sj.people.mapM (loadStudyPerson tsd)
  let designDescriptors ← sj.studyDesignDescriptors.mapM (ontologyAnnotationFromJson tsd "")
  let prot ← studyProtocols tsd pools.protocols pools.parameters sj.protocols
  let fac ← studyFactors tsd pools.factors sj.factors
  let src ← studySources tsd cc.2 units1 pools.sources sj.materials.sources
  let smp ← studySamples tsd cc.2 units1 fac.2 pools.samples sj.materials.samples
  let prc ← studyProcesses tsd prot.2.1 prot.2.2 units1 src.2 smp.2 pools.processes
    sj.processSequence
  let processDict2 := linkProcesses prc.2 sj.processSequence
  let seq2 := refreshProcesses processDict2 prc.1
  let graph := buildAssayGraph seq2
  let asy ← loadAssays tsd
    { samples := smp.2, sources := src.2, categories := cc.2, protocols := prot.2.1,
      factors := fac.2, parameters := prot.2.2, units := units1,
      processes := processDict2 }
    sj.assays
  Except.ok
    ({ identifier := sj.identifier, title := sj.title, description := sj.description,
       submissionDate := sj.submissionDate, publicReleaseDate := sj.publicReleaseDate,
       filename := sj.filename, comments := loadComments (sj.comments.getD []),
       characteristicCategories := cc.1 ++ asy.2.2, publications := publications,
       contacts := contacts, designDescriptors := designDescriptors,
       protocols := prot.1, factors := fac.1, sources := src.1, samples := smp.1,
       processSequence := seq2, graph := graph, assays := asy.1 },
     asy.2.1)

def loadStudies (tsd : TermSourceDict) (pools : Pools) (sjs : List StudyJson) :
    Except LoadErr (List Study × Pools) :=
  sjs.foldlM
    (fun acc sj => do
      let r ← loadStudy tsd acc.2 sj
      pure (acc.1 ++ [r.1], r.2))
    ([], pools)

/-- The built investigation. -/
structure Investigation where
  identifier : String
  title : String
  description : String
  submissionDate : String
  publicReleaseDate : String
  comments : List Comment
  ontologySourceReferences : List OntologySourceReference
  publications : List Publication
  contacts : List Person
  studies : List Study
deriving DecidableEq

/-- `load`: investigation scalars and comments, ontology sources,
publications, people, the assay-category pre-scan, then the studies over
fresh pools seeded with the pre-scanned categories. An error at any point
aborts the whole load: no partial `Investigation` is returned. -/
def load (doc : InvestigationJson) : Except LoadErr Investigation := do
  let ts := loadOntologySources doc.ontologySourceReferences
  let publications ← doc.publications.mapM (loadPublication ts.1)
  let contacts ← doc.people.mapM (loadInvPerson ts.1)
  let cats0 ← prescanAssayCategories ts.1 doc.studies
  let st ← loadStudies ts.1
    { samples := [], sources := [], categories := cats0, protocols := [],
      factors := [], parameters := [], units := [], processes := [] }
    doc.studies
  Except.ok
    { identifier := doc.identifier, title := doc.title, description := doc.description,
      submissionDate := doc.submissionDate, publicReleaseDate := doc.publicReleaseDate,
      comments := loadComments doc.comments,
      ontologySourceReferences := ts.2, publications := publications,
      contacts := contacts, studies := st.1 }

/-! ## General helpers for the proofs -/

instance instDecEqExcept {ε α : Type} [DecidableEq ε] [DecidableEq α] :
    DecidableEq (Except ε α) := fun a b =>
  match a, b with
  | Except.ok x, Except.ok y =>
    if h : x = y then Decidable.isTrue (congrArg Except.ok h)
    else Decidable.isFalse (fun hc => h (Except.ok.inj hc))
  | Except.error x, Except.error y =>
    if h : x = y then Decidable.isTrue (congrArg Except.error h)
    else Decidable.isFalse (fun hc => h (Except.error.inj hc))
  | Except.ok _, Except.error _ => Decidable.isFalse (fun hc => Except.noConfusion hc)
  | Except.error _, Except.ok _ => Decidable.isFalse (fun hc => Except.noConfusion hc)

/-- Inverting a successful `Except` bind. -/
theorem exceptBindOk {ε α β : Type} {e : Except ε α} {f : α → Except ε β} {b : β}
    (h : (e >>= f) = Except.ok b) : ∃ a, e = Except.ok a ∧ f a = Except.ok b := by
  cases e with
  | ok a => exact ⟨a, rfl, h⟩
  | error err => exact absurd h (by simp [Bind.bind, Except.bind])

theorem dictGet_nil {α : Type} (k : String) : dictGet ([] : Dict α) k = none := rfl

theorem dictGet_cons {α : Type} (p : String × α) (t : Dict α) (k : String) :
    dictGet (p :: t) k = if p.1 == k then some p.2 else dictGet t k := by
  unfold dictGet
  cases h : p.1 == k <;> simp [List.find?, h]

theorem dictGet_map_replace_self {α : Type} (t : Dict α) (k : String) (v : α)
    (h : t.any (fun p => p.1 == k) = true) :
    dictGet (t.map (fun p => if p.1 == k then (k, v) else p)) k = some v := by
  induction t with
  | nil => simp at h
  | cons p t ih =>
    by_cases hp : p.1 = k
    · simp [dictGet_cons, hp]
    · simp only [List.any_cons, Bool.or_eq_true, beq_iff_eq] at h
      rcases h with h | h
      · exact absurd h hp
      · simpa [dictGet_cons, hp] using ih (by simpa using h)

theorem dictGet_map_replace_other {α : Type} (t : Dict α) (k : String) (v : α)
    (k' : String) (hk : k' ≠ k) :
    dictGet (t.map (fun p => if p.1 == k then (k, v) else p)) k' = dictGet t k' := by
  induction t with
  | nil => rfl
  | cons p t ih =>
    by_cases hp : p.1 = k
    · have h1 : ¬ k = k' := fun hkk => hk hkk.symm
      have h2 : ¬ p.1 = k' := by rw [hp]; exact h1
      simpa [dictGet_cons, hp, h1, h2] using ih
    · by_cases hq : p.1 = k'
      · simp [dictGet_cons, hp, hq, hk]
      · simpa [dictGet_cons, hp, hq] using ih

theorem dictGet_append_single {α : Type} (d : Dict α) (k : String) (v : α)
    (k' : String) :
    dictGet (d ++ [(k, v)]) k' =
      match dictGet d k' with
      | some x => some x
      | none => if k' = k then some v else none := by
  induction d with
  | nil =>
    by_cases hk : k' = k
    · subst hk; simp [dictGet_cons, dictGet_nil]
    · have h1 : ¬ k = k' := fun hkk => hk hkk.symm
      simp [dictGet_cons, dictGet_nil, h1, hk]
  | cons p t ih =>
    by_cases hq : p.1 = k'
    · simp [dictGet_cons, hq]
    · simpa [dictGet_cons, hq] using ih

theorem dictAny_false_get_none {α : Type} (d : Dict α) (k : String)
    (h : d.any (fun p => p.1 == k) = false) : dictGet d k = none := by
  induction d with
  | nil => rfl
  | cons p t ih =>
    simp only [List.any_cons, Bool.or_eq_false_iff, beq_eq_false_iff_ne, ne_eq] at h
    simpa [dictGet_cons, h.1] using ih (by simpa using h.2)

/-- `d[k] = v; d[k]` yields `v`: lookup after insertion of the same key. -/
theorem dictGet_insert_self {α : Type} (d : Dict α) (k : String) (v : α) :
    dictGet (dictInsert d k v) k = some v := by
  unfold dictInsert
  by_cases h : d.any (fun p => p.1 == k) = true
  · simpa [h] using dictGet_map_replace_self d k v h
  · simp only [Bool.not_eq_true] at h
    rw [if_neg (by simp [h]), dictGet_append_single, dictAny_false_get_none d k h]
    simp

/-- Insertion leaves lookups of other keys unchanged. -/
theorem dictGet_insert_other {α : Type} (d : Dict α) (k : String) (v : α)
    (k' : String) (hk : k' ≠ k) :
    dictGet (dictInsert d k v) k' = dictGet d k' := by
  unfold dictInsert
  by_cases h : d.any (fun p => p.1 == k) = true
  · simpa [h] using dictGet_map_replace_other d k v k' hk
  · simp only [Bool.not_eq_true] at h
    rw [if_neg (by simp [h]), dictGet_append_single]
    cases hd : dictGet d k' with
    | some x => rfl
    | none => simp [hk]

/-- Insertion preserves key presence. -/
theorem dictGet_insert_isSome {α : Type} (d : Dict α) (k : String) (v : α)
    (k' : String) (h : (dictGet d k').isSome = true) :
    (dictGet (dictInsert d k v) k').isSome = true := by
  by_cases hk : k' = k
  · subst hk; simp [dictGet_insert_self]
  · rw [dictGet_insert_other d k v k' hk]; exact h

/-! ## Shared concrete documents for evaluation -/

/-- An annotation with the empty term source (resolved to "no source"). -/
def annotationJson0 : AnnotationJson :=
  { annotationValue := "", termAccession := "", termSource := "" }

/-- A study with every section empty. -/
def studyJson0 : StudyJson :=
  { identifier := "S1", title := "", description := "", submissionDate := "",
    publicReleaseDate := "", filename := "s_x.txt", comments := none,
    characteristicCategories := [], unitCategories := [], publications := [],
    people := [], studyDesignDescriptors := [], protocols := [], factors := [],
    materials := { sources := [], samples := [] }, processSequence := [], assays := [] }

/-- An investigation wrapping the given studies, all other sections empty. -/
def invJson0 (studies : List StudyJson) : InvestigationJson :=
  { identifier := "I1", title := "", description := "", submissionDate := "",
    publicReleaseDate := "", comments := [], ontologySourceReferences := [],
    publications := [], people := [], studies := studies }

def protocolJson0 : ProtocolJson :=
  { id := "#protocol/p1", name := "sample collection", uri := "", description := "",
    version := "", protocolType := annotationJson0, parameters := [], components := [] }

/-! ## Claim C1 -/

/-- C1 (counterexample): with the identifier `#node/x` present in both the
source pool and the sample pool, study-process input resolution returns the
entity from the sample pool, not the Source from the earliest pool as the
claim states. -/
theorem C1_counterexample :
    resolveStudyIONode
        [("#node/x", ({ id := "#node/x", name := "A", characteristics := [] } : Source))]
        [("#node/x", ({ id := "#node/x", name := "B", derivesFrom := [],
                        characteristics := [], factorValues := [] } : Sample))]
        "input" "#node/x" =
      Except.ok (Node.sample { id := "#node/x", name := "B", derivesFrom := [],
                               characteristics := [], factorValues := [] }) ∧
    Node.sample { id := "#node/x", name := "B", derivesFrom := [],
                  characteristics := [], factorValues := [] } ≠
      Node.source { id := "#node/x", name := "A", characteristics := [] } := by
  exact ⟨rfl, by decide⟩

/-- C1 (amended): input/output resolution tries the pools in pool order but
a later pool's hit overwrites an earlier one (the lookups run in `finally`
blocks), so the resolved entity comes from the LATEST pool containing the
identifier — samples beat sources for study processes; data files beat
other materials beat samples for assay processes — and only when every
pool misses is the `IOError` naming all pools raised. -/
theorem C1_resolution_last_pool_wins :
    (∀ (sourcesDict : Dict Source) (samplesDict : Dict Sample) (word nid : String),
      resolveStudyIONode sourcesDict samplesDict word nid =
        match dictGet samplesDict nid with
        | some s => Except.ok (Node.sample s)
        | none =>
          match dictGet sourcesDict nid with
          | some s => Except.ok (Node.source s)
          | none => Except.error (LoadErr.ioError
              ("Could not find " ++ word ++ " node in sources or samples dicts: " ++ nid))) ∧
    (∀ (samplesDict : Dict Sample) (otherMaterialsDict : Dict Material)
        (dataDict : Dict DataFile) (word nid : String),
      resolveAssayIONode samplesDict otherMaterialsDict dataDict word nid =
        match dictGet dataDict nid with
        | some d => Except.ok (Node.dataFile d)
        | none =>
          match dictGet otherMaterialsDict nid with
          | some m => Except.ok (Node.material m)
          | none =>
            match dictGet samplesDict nid with
            | some s => Except.ok (Node.sample s)
            | none => Except.error (LoadErr.ioError
                ("Could not find " ++ word ++ " node in samples or materials or data dicts: "
                  ++ nid))) := by
  constructor
  · intro sourcesDict samplesDict word nid
    unfold resolveStudyIONode
    cases h1 : dictGet samplesDict nid <;> cases h2 : dictGet sourcesDict nid <;>
      simp [h1, h2]
  · intro samplesDict otherMaterialsDict dataDict word nid
    unfold resolveAssayIONode
    cases h1 : dictGet dataDict nid <;> cases h2 : dictGet otherMaterialsDict nid <;>
      cases h3 : dictGet samplesDict nid <;> simp [h1, h2, h3]

/-! ## Claim C10 -/

theorem loadDataFiles_names_aux (djs : List DataFileJson)
    (acc : List DataFile × Dict DataFile) :
    ((djs.foldl dataFileStep acc).1.map (fun df => df.filename)) =
      acc.1.map (fun df => df.filename) ++ djs.map (fun dj => dj.name) := by
  induction djs generalizing acc with
  | nil => simp
  | cons dj t ih =>
    simp only [List.foldl_cons, List.map_cons, ih, dataFileStep, List.map_append]
    simp

/-- C10: loaded entity names are the document name fields with a fixed
prefix dropped — 7 characters for sources and samples; for other materials
15 characters when the name starts with `labeledextract-` and 8 otherwise;
data-file names are stored unmodified. -/
theorem C10_name_prefixes :
    (∀ (tsd : TermSourceDict) (cats units : Dict OntologyAnnotation) (sj : SourceJson)
        (src : Source), buildSource tsd cats units sj = Except.ok src →
      src.name = sj.name.drop 7) ∧
    (∀ (tsd : TermSourceDict) (cats units : Dict OntologyAnnotation)
        (fd : Dict StudyFactor) (sj : SampleJson) (smp : Sample),
      buildSample tsd cats units fd sj = Except.ok smp →
      smp.name = sj.name.drop 7) ∧
    (∀ (tsd : TermSourceDict) (cats : Dict OntologyAnnotation) (mj : OtherMaterialJson)
        (m : Material), buildMaterial tsd cats mj = Except.ok m →
      m.name = if startsWithStr mj.name "labeledextract-" then mj.name.drop 15
               else mj.name.drop 8) ∧
    (∀ djs : List DataFileJson,
      ((loadDataFiles djs).1.map (fun df => df.filename)) = djs.map (fun dj => dj.name)) := by
  refine ⟨?_, ?_, ?_, ?_⟩
  · intro tsd cats units sj src h
    unfold buildSource at h
    obtain ⟨chars, h1, h2⟩ := exceptBindOk h
    have := Except.ok.inj h2
    rw [← this]
  · intro tsd cats units fd sj smp h
    unfold buildSample at h
    obtain ⟨chars, h1, h2⟩ := exceptBindOk h
    obtain ⟨fvs, h3, h4⟩ := exceptBindOk h2
    have := Except.ok.inj h4
    rw [← this]
  · intro tsd cats mj m h
    unfold buildMaterial at h
    obtain ⟨chars, h1, h2⟩ := exceptBindOk h
    have := Except.ok.inj h2
    rw [← this]
  · intro djs
    unfold loadDataFiles
    simpa using loadDataFiles_names_aux djs ([], [])

/-- C10 (witness): a source named `source-alpha` is stored as `alpha`; a
labeled-extract material named `labeledextract-le1` is stored as `le1`. -/
theorem C10_witness :
    ({ id := "#source/s1", name := "alpha", characteristics := [] } : Source).name =
      ("source-alpha" : String).drop 7 ∧
    ({ id := "#material/m1", name := "le1", type := "Labeled Extract Name",
       characteristics := [] } : Material).name =
      (if startsWithStr "labeledextract-le1" "labeledextract-"
       then ("labeledextract-le1" : String).drop 15
       else ("labeledextract-le1" : String).drop 8) := by
  constructor
  · exact C10_name_prefixes.1 [("", none)] [] []
      { id := "#source/s1", name := "source-alpha", characteristics := [] } _ (by decide)
  · exact C10_name_prefixes.2.2.1 [("", none)] []
      { id := "#material/m1", name := "labeledextract-le1", type := "Labeled Extract Name",
        characteristics := [] } _ (by decide)

/-! ## Claim C4 -/

/-- C4 (amended): for SOURCE and SAMPLE characteristics with a resolvable
category and a numeric value, the loader requires a unit reference that
resolves in the unit pool — raising `IOError` (the "unresolved unit"
failure) when the reference is absent or unresolved — and on success builds
the characteristic with that unit and the numeric value unchanged. -/
theorem C4_numeric_characteristic_unit :
    ∀ (tsd : TermSourceDict) (cats ud : Dict OntologyAnnotation)
      (cj : CharacteristicJson) (cat : OntologyAnnotation) (n : Int),
      dictGet cats cj.category = some cat → cj.value = ValueJson.vNum n →
      buildCharacteristic tsd cats ud cj =
        match cj.unit with
        | some uid =>
          match dictGet ud uid with
          | some u => Except.ok { category := cat, value := CharValue.cvNum n, unit := some u }
          | none => Except.error (LoadErr.ioError "Can't create unit annotation")
        | none => Except.error (LoadErr.ioError "Can't create unit annotation") := by
  intro tsd cats ud cj cat n hcat hval
  unfold buildCharacteristic dictFetch
  rw [hcat, hval]
  rfl

/-- C4 (witness): a numeric sample characteristic with a resolvable unit is
built with that unit and the value 42 unchanged. -/
theorem C4_numeric_characteristic_unit_witness :
    buildCharacteristic [("", none)]
        [("#characteristic_category/c1",
          ({ id := "#characteristic_category/c1", name := "", termSource := none,
             termAccession := "" } : OntologyAnnotation))]
        [("#unit/u1",
          ({ id := "#unit/u1", name := "mg", termSource := none,
             termAccession := "" } : OntologyAnnotation))]
        { category := "#characteristic_category/c1", value := ValueJson.vNum 42,
          unit := some "#unit/u1" } =
      Except.ok { category := { id := "#characteristic_category/c1", name := "",
                                termSource := none, termAccession := "" },
                  value := CharValue.cvNum 42,
                  unit := some { id := "#unit/u1", name := "mg", termSource := none,
                                 termAccession := "" } } := by
  have := C4_numeric_characteristic_unit [("", none)]
    [("#characteristic_category/c1",
      { id := "#characteristic_category/c1", name := "", termSource := none,
        termAccession := "" })]
    [("#unit/u1", { id := "#unit/u1", name := "mg", termSource := none, termAccession := "" })]
    { category := "#characteristic_category/c1", value := ValueJson.vNum 42,
      unit := some "#unit/u1" }
    { id := "#characteristic_category/c1", name := "", termSource := none, termAccession := "" }
    42 (by decide) rfl
  simpa using this

def materialJsonC4 : OtherMaterialJson :=
  { id := "#material/m1", name := "extract-m1", type := "Extract Name",
    characteristics := [{ category := "#characteristic_category/c1",
                          value := ValueJson.vNum 42, unit := some "#unit/u1" }] }

def assayJsonC4 : AssayJson :=
  { measurementType := annotationJson0, technologyType := annotationJson0,
    technologyPlatform := "", filename := "a_c4.txt",
    unitCategories := [{ id := "#unit/u1", annotationValue := "mg", termSource := "",
                         termAccession := "" }],
    dataFiles := [],
    materials := { samples := [], otherMaterials := [materialJsonC4] },
    characteristicCategories := [{ id := "#characteristic_category/c1",
                                   characteristicType := annotationJson0 }],
    processSequence := [] }

def docC4 : InvestigationJson :=
  invJson0 [{ studyJson0 with assays := [assayJsonC4] }]

/-- C4 (counterexample): an other-material characteristic with numeric
value 42 and a unit reference that resolves in the unit pool makes the
whole load fail with a `TypeError` — not the claimed success, and not an
"unresolved unit" `IOError`. -/
theorem C4_counterexample :
    load docC4 = Except.error (LoadErr.typeError "value is not subscriptable") := by
  decide

/-! ## Claim C6 -/

def protocolJsonDupA : ProtocolJson :=
  { id := "#protocol/p1", name := "A", uri := "", description := "", version := "",
    protocolType := annotationJson0, parameters := [], components := [] }

def protocolJsonDupB : ProtocolJson :=
  { id := "#protocol/p1", name := "B", uri := "", description := "", version := "",
    protocolType := annotationJson0, parameters := [], components := [] }

def processJsonP1 : ProcessJson :=
  { id := "#process/p1", executesProtocol := "#protocol/p1", name := none,
    comments := none, date := none, performer := none, parameterValues := [],
    inputs := [], outputs := [], previousProcess := none, nextProcess := none }

def docC6 : InvestigationJson :=
  invJson0 [{ studyJson0 with
              protocols := [protocolJsonDupA, protocolJsonDupB],
              processSequence := [processJsonP1] }]

/-- C6 (counterexample): two protocols declared under the same identifier
load without any error; the pool silently replaces the first declaration,
so a process referencing the identifier resolves to the second protocol
(named `B`), while the study list keeps both. -/
theorem C6_counterexample :
    (match load docC6 with
     | Except.ok inv =>
       (inv.studies.head?.bind (fun s => s.processSequence.head?)).map
         (fun p => p.executesProtocol.name)
     | Except.error _ => none) = some "B" ∧
    (match load docC6 with
     | Except.ok inv => inv.studies.head?.map (fun s => s.protocols.length)
     | Except.error _ => none) = some 2 := by
  decide

/-- C6 (amended): a declaration under an identifier already present for
that kind silently replaces the earlier pool entry (the later declaration
wins) and never fails; lookups of other identifiers are unaffected. In
particular the protocol pool, after declaring two protocols with one
identifier, maps it to the protocol built from the second document entry,
while the study's protocol list keeps both. -/
theorem C6_declare_last_wins :
    (∀ {α : Type} (d : Dict α) (k : String) (v : α),
      dictGet (dictInsert d k v) k = some v ∧
      ∀ k', k' ≠ k → dictGet (dictInsert d k v) k' = dictGet d k') ∧
    (∀ (tsd : TermSourceDict) (pj1 pj2 : ProtocolJson)
        (r : List Protocol × Dict Protocol × Dict ProtocolParameter),
      pj1.id = pj2.id → studyProtocols tsd [] [] [pj1, pj2] = Except.ok r →
      (∃ p2, dictGet r.2.1 pj2.id = some p2 ∧ p2.name = pj2.name) ∧ r.1.length = 2) := by
  constructor
  · intro α d k v
    exact ⟨dictGet_insert_self d k v, fun k' hk => dictGet_insert_other d k v k' hk⟩
  · intro tsd pj1 pj2 r hid h
    unfold studyProtocols at h
    simp only [List.foldlM_cons, List.foldlM_nil] at h
    obtain ⟨s1, hs1, h⟩ := exceptBindOk h
    obtain ⟨s2, hs2, h⟩ := exceptBindOk h
    obtain ⟨pt1, hpt1, hs1'⟩ := exceptBindOk hs1
    obtain ⟨prm1, hprm1, hs1''⟩ := exceptBindOk hs1'
    obtain ⟨cmp1, hcmp1, hs1'''⟩ := exceptBindOk hs1''
    obtain ⟨pt2, hpt2, hs2'⟩ := exceptBindOk hs2
    obtain ⟨prm2, hprm2, hs2''⟩ := exceptBindOk hs2'
    obtain ⟨cmp2, hcmp2, hs2'''⟩ := exceptBindOk hs2''
    have hs1v := Except.ok.inj hs1'''
    have hs2v := Except.ok.inj hs2'''
    have hr := Except.ok.inj h
    subst hs1v hs2v
    rw [← hr]
    refine ⟨⟨_, dictGet_insert_self _ _ _, ?_⟩, by simp⟩
    rfl

def protocolEntA : Protocol :=
  { id := "#protocol/p1", name := "A", uri := "", description := "", version := "",
    protocolType := { id := "", name := "", termSource := none, termAccession := "" },
    parameters := [], components := [] }

def protocolEntB : Protocol :=
  { id := "#protocol/p1", name := "B", uri := "", description := "", version := "",
    protocolType := { id := "", name := "", termSource := none, termAccession := "" },
    parameters := [], components := [] }

def rC6 : List Protocol × Dict Protocol × Dict ProtocolParameter :=
  ([protocolEntA, protocolEntB], [("#protocol/p1", protocolEntB)], [])

/-- C6 (witness): concrete replacement — insertion of `2` under an existing
key yields `2` on lookup, other keys unchanged; duplicate protocol
declarations leave the pool holding the protocol named `B`. -/
theorem C6_witness :
    dictGet (dictInsert [("#p", (1 : Nat))] "#p" 2) "#p" = some 2 ∧
    dictGet (dictInsert [("#p", (1 : Nat))] "#p" 2) "#q" = dictGet [("#p", (1 : Nat))] "#q" ∧
    ((∃ p2, dictGet rC6.2.1 "#protocol/p1" = some p2 ∧ p2.name = "B") ∧
      rC6.1.length = 2) := by
  refine ⟨(C6_declare_last_wins.1 [("#p", (1 : Nat))] "#p" 2).1,
          (C6_declare_last_wins.1 [("#p", (1 : Nat))] "#p" 2).2 "#q" (by decide),
          C6_declare_last_wins.2 [("", none)] protocolJsonDupA protocolJsonDupB rC6
            rfl (by decide)⟩

/-! ## Claim C2 -/

/-- C2 (amended): the loader's failure classes are mixed rather than
uniformly `IOError`: (1) an input/output identifier missing from every pool
raises the `IOError` naming the pools tried; (2) a numeric source/sample
characteristic without a unit reference raises the "unresolved unit"
`IOError`; (3) an unresolved characteristic category aborts with a bare
`KeyError` (a lookup failure, not an `IOError`); (4) a `previousProcess`
pointer naming an undeclared process id is silently ignored by the linking
pass — no error at all, the link is simply left unset. In every failing
case the load aborts with no partial graph (`load` returns `Except.error`). -/
theorem C2_error_classes :
    (∀ (sourcesDict : Dict Source) (samplesDict : Dict Sample) (word nid : String),
      dictGet sourcesDict nid = none → dictGet samplesDict nid = none →
      resolveStudyIONode sourcesDict samplesDict word nid =
        Except.error (LoadErr.ioError
          ("Could not find " ++ word ++ " node in sources or samples dicts: " ++ nid))) ∧
    (∀ (tsd : TermSourceDict) (cats ud : Dict OntologyAnnotation)
        (cj : CharacteristicJson) (cat : OntologyAnnotation) (n : Int),
      dictGet cats cj.category = some cat → cj.value = ValueJson.vNum n →
      cj.unit = none →
      buildCharacteristic tsd cats ud cj =
        Except.error (LoadErr.ioError "Can't create unit annotation")) ∧
    (∀ (tsd : TermSourceDict) (cats ud : Dict OntologyAnnotation)
        (cj : CharacteristicJson),
      dictGet cats cj.category = none →
      buildCharacteristic tsd cats ud cj = Except.error (LoadErr.keyError cj.category)) ∧
    (∀ (pd : Dict Process) (pj : ProcessJson) (q : String),
      pj.previousProcess = some q → pj.nextProcess = none → dictGet pd q = none →
      linkProcesses pd [pj] = pd) := by
  refine ⟨?_, ?_, ?_, ?_⟩
  · intro sourcesDict samplesDict word nid h1 h2
    unfold resolveStudyIONode
    simp [h1, h2]
  · intro tsd cats ud cj cat n hcat hval hunit
    unfold buildCharacteristic dictFetch
    rw [hcat, hval, hunit]
    rfl
  · intro tsd cats ud cj hcat
    unfold buildCharacteristic dictFetch
    rw [hcat]
    rfl
  · intro pd pj q hprev hnext hq
    unfold linkProcesses
    simp only [List.foldl_cons, List.foldl_nil, hprev, hnext, hq]
    cases dictGet pd pj.id <;> rfl

/-- C2 (witness): concrete instances of the four behaviours. -/
theorem C2_error_classes_witness :
    resolveStudyIONode [] [] "input" "#node/x" =
      Except.error (LoadErr.ioError
        "Could not find input node in sources or samples dicts: #node/x") ∧
    buildCharacteristic [("", none)]
        [("#cc/c", ({ id := "#cc/c", name := "", termSource := none,
                      termAccession := "" } : OntologyAnnotation))] []
        { category := "#cc/c", value := ValueJson.vNum 7, unit := none } =
      Except.error (LoadErr.ioError "Can't create unit annotation") ∧
    buildCharacteristic [("", none)] [] []
        { category := "#cc/missing", value := ValueJson.vStr "x", unit := none } =
      Except.error (LoadErr.keyError "#cc/missing") ∧
    linkProcesses [] [{ id := "#process/p1", executesProtocol := "#protocol/p1",
                        name := none, comments := none, date := none, performer := none,
                        parameterValues := [], inputs := [], outputs := [],
                        previousProcess := some "#process/ghost", nextProcess := none }] =
      [] := by
  refine ⟨C2_error_classes.1 [] [] "input" "#node/x" rfl rfl,
          C2_error_classes.2.1 [("", none)]
            [("#cc/c", { id := "#cc/c", name := "", termSource := none,
                         termAccession := "" })] []
            { category := "#cc/c", value := ValueJson.vNum 7, unit := none }
            { id := "#cc/c", name := "", termSource := none, termAccession := "" }
            7 (by decide) rfl rfl,
          C2_error_classes.2.2.1 [("", none)] [] []
            { category := "#cc/missing", value := ValueJson.vStr "x", unit := none } rfl,
          C2_error_classes.2.2.2 []
            { id := "#process/p1", executesProtocol := "#protocol/p1", name := none,
              comments := none, date := none, performer := none, parameterValues := [],
              inputs := [], outputs := [], previousProcess := some "#process/ghost",
              nextProcess := none } "#process/ghost" rfl rfl rfl⟩

def processJsonGhost : ProcessJson :=
  { id := "#process/p1", executesProtocol := "#protocol/p1", name := none,
    comments := none, date := none, performer := none, parameterValues := [],
    inputs := [], outputs := [], previousProcess := some "#process/ghost",
    nextProcess := none }

def docC2 : InvestigationJson :=
  invJson0 [{ studyJson0 with
              protocols := [protocolJson0],
              processSequence := [processJsonGhost] }]

/-- C2 (counterexample): a document whose only process carries a
`previousProcess` pointer to the undeclared id `#process/ghost` loads
successfully — no `IOError`-class failure is raised — and the built process
simply has no previous-process link. -/
theorem C2_counterexample :
    (load docC2).isOk = true ∧
    (match load docC2 with
     | Except.ok inv =>
       (inv.studies.head?.bind (fun s => s.processSequence.head?)).map
         (fun p => p.prevProcess)
     | Except.error _ => none) = some none := by
  decide

/-! ## Claim C3 -/

/-- A process as the loader's two passes leave it for a pure chain document:
no inputs/outputs, links as given. -/
def mkChainProcess (protocol : Protocol) (prev next : Option String) (pid : String) :
    Process :=
  { id := pid, executesProtocol := protocol, comments := [], date := none,
    performer := none, parameterValues := [], inputs := [], outputs := [],
    prevProcess := prev, nextProcess := next, additionalProperties := [] }

/-- The loaded process list of a document whose processes form one doubly
linked chain in document order, with no explicit inputs or outputs. -/
def chainAux (protocol : Protocol) : Option String → List String → List Process
  | _, [] => []
  | prev, [a] => [mkChainProcess protocol prev none a]
  | prev, a :: b :: rest =>
    mkChainProcess protocol prev (some b) a :: chainAux protocol (some a) (b :: rest)

def chainProcesses (protocol : Protocol) (ids : List String) : List Process :=
  chainAux protocol none ids

/-- The expected graph: one edge per consecutive pair of chain ids. -/
def chainEdges (ids : List String) : List (GNode × GNode) :=
  (ids.zip ids.tail).map (fun ab => (GNode.proc ab.1, GNode.proc ab.2))

theorem chainEdges_cons (a b : String) (rest : List String) :
    chainEdges (a :: b :: rest) = (GNode.proc a, GNode.proc b) :: chainEdges (b :: rest) := by
  simp [chainEdges]

/-- `graphStep` on a chain process: the next link's edge, then the previous
link's edge. -/
theorem graphStep_chain (g : List (GNode × GNode)) (protocol : Protocol)
    (prev next : Option String) (pid : String) :
    graphStep g (mkChainProcess protocol prev next pid) =
      (let g1 := match next with
        | some nid => addEdge g (GNode.proc pid) (GNode.proc nid)
        | none => g
       match prev with
       | some q => addEdge g1 (GNode.proc q) (GNode.proc pid)
       | none => g1) := by
  cases next <;> cases prev <;> simp [graphStep, mkChainProcess]

theorem chainAux_foldl (protocol : Protocol) :
    ∀ (l : List String) (q : String) (g : List (GNode × GNode)),
      (q :: l).Nodup →
      (∀ x ∈ l, ∀ y, (GNode.proc x, y) ∉ g) →
      (∀ x ∈ l.tail, ∀ y, (y, GNode.proc x) ∉ g) →
      (∀ a rest, l = a :: rest → (GNode.proc q, GNode.proc a) ∈ g) →
      (chainAux protocol (some q) l).foldl graphStep g = g ++ chainEdges l := by
  intro l
  induction l with
  | nil => intro q g _ _ _ _; simp [chainAux, chainEdges]
  | cons a t ih =>
    intro q g hnd h1 h2 h3
    cases t with
    | nil =>
      have hqa : (GNode.proc q, GNode.proc a) ∈ g := h3 a [] rfl
      simp only [chainAux, List.foldl_cons, List.foldl_nil, graphStep_chain]
      rw [addEdge, if_pos hqa]
      simp [chainEdges]
    | cons b rest =>
      have hqa : (GNode.proc q, GNode.proc a) ∈ g := h3 a (b :: rest) rfl
      have hab : (GNode.proc a, GNode.proc b) ∉ g := h1 a (by simp) (GNode.proc b)
      have hstep :
          graphStep g (mkChainProcess protocol (some q) (some b) a) =
            g ++ [(GNode.proc a, GNode.proc b)] := by
        rw [graphStep_chain]
        simp only [addEdge, if_neg hab]
        rw [if_pos (by simp [hqa])]
      simp only [chainAux, List.foldl_cons, hstep]
      have hnd' : (a :: b :: rest).Nodup := hnd.of_cons
      have ha_not : a ∉ b :: rest := by
        have := hnd'.not_mem
        simpa using this
      have hb_not : b ∉ rest := by
        have := hnd'.of_cons.not_mem
        simpa using this
      rw [ih a (g ++ [(GNode.proc a, GNode.proc b)]) hnd' ?_ ?_ ?_]
      · rw [chainEdges_cons, List.append_assoc]
        rfl
      · intro x hx y hmem
        rcases List.mem_append.mp hmem with hmem | hmem
        · exact h1 x (by simp [hx]) y hmem
        · have hpair := List.mem_singleton.mp hmem
          injection hpair with hx2 hy2
          injection hx2 with hx3
          exact ha_not (hx3 ▸ hx)
      · intro x hx y hmem
        simp only [List.tail_cons] at hx
        rcases List.mem_append.mp hmem with hmem | hmem
        · exact h2 x (by simp [hx]) y hmem
        · have hpair := List.mem_singleton.mp hmem
          injection hpair with hy2 hx2
          injection hx2 with hx3
          exact hb_not (hx3 ▸ hx)
      · intro a' rest' heq
        injection heq with h4 h5
        subst h4
        exact List.mem_append_right _ (by simp)

/-- C3: for a document whose N processes form a single linear chain linked
only by previous/next pointers (no explicit inputs or outputs), the built
workflow graph is exactly the N−1 edges joining consecutive processes in
chain order (the duplicate edge each doubly-linked pair would contribute is
collapsed by the graph's add-edge semantics). -/
theorem C3_linear_chain (protocol : Protocol) (ids : List String) (hnd : ids.Nodup) :
    buildAssayGraph (chainProcesses protocol ids) = chainEdges ids ∧
    (chainEdges ids).length = ids.length - 1 := by
  constructor
  · cases ids with
    | nil => simp [buildAssayGraph, chainProcesses, chainAux, chainEdges]
    | cons a t =>
      cases t with
      | nil =>
        simp [buildAssayGraph, chainProcesses, chainAux, chainEdges, graphStep_chain]
      | cons b rest =>
        unfold buildAssayGraph chainProcesses
        simp only [chainAux, List.foldl_cons]
        have hstep :
            graphStep [] (mkChainProcess protocol none (some b) a) =
              [(GNode.proc a, GNode.proc b)] := by
          rw [graphStep_chain]
          simp [addEdge]
        rw [hstep]
        rw [chainAux_foldl protocol (b :: rest) a [(GNode.proc a, GNode.proc b)] hnd ?_ ?_ ?_]
        · rw [chainEdges_cons]
          rfl
        · intro x hx y hmem
          have hpair := List.mem_singleton.mp hmem
          injection hpair with hx2 hy2
          injection hx2 with hx3
          have ha_not : a ∉ b :: rest := by
            have := hnd.not_mem
            simpa using this
          exact ha_not (hx3 ▸ hx)
        · intro x hx y hmem
          simp only [List.tail_cons] at hx
          have hpair := List.mem_singleton.mp hmem
          injection hpair with hy2 hx2
          injection hx2 with hx3
          have hb_not : b ∉ rest := by
            have := hnd.of_cons.not_mem
            simpa using this
          exact hb_not (hx3 ▸ hx)
        · intro a' rest' heq
          injection heq with h4 h5
          subst h4
          simp
  · simp only [chainEdges, List.length_map, List.length_zip, List.length_tail]
    omega

def protocolEnt0 : Protocol :=
  { id := "#protocol/p1", name := "sample collection", uri := "", description := "",
    version := "", protocolType := { id := "", name := "", termSource := none,
                                     termAccession := "" },
    parameters := [], components := [] }

/-- C3 (witness): a three-process chain yields exactly the two edges
`p1 → p2 → p3`. -/
theorem C3_linear_chain_witness :
    (["#process/p1", "#process/p2", "#process/p3"] : List String).Nodup ∧
    (buildAssayGraph (chainProcesses protocolEnt0
        ["#process/p1", "#process/p2", "#process/p3"]) =
      chainEdges ["#process/p1", "#process/p2", "#process/p3"] ∧
    (chainEdges ["#process/p1", "#process/p2", "#process/p3"]).length = 3 - 1) :=
  ⟨by decide,
   C3_linear_chain protocolEnt0 ["#process/p1", "#process/p2", "#process/p3"] (by decide)⟩

/-! ## Pool-growth lemmas for the scoping claims -/

theorem buildCharacteristicCategory_id (tsd : TermSourceDict)
    (ccj : CharacteristicCategoryJson) (cc : OntologyAnnotation)
    (h : buildCharacteristicCategory tsd ccj = Except.ok cc) : cc.id = ccj.id := by
  unfold buildCharacteristicCategory at h
  obtain ⟨src, h1, h2⟩ := exceptBindOk h
  have := Except.ok.inj h2
  rw [← this]

theorem buildUnit_id (tsd : TermSourceDict) (uj : UnitJson) (u : OntologyAnnotation)
    (h : buildUnit tsd uj = Except.ok u) : u.id = uj.id := by
  unfold buildUnit at h
  obtain ⟨src, h1, h2⟩ := exceptBindOk h
  have := Except.ok.inj h2
  rw [← this]

/-- The pre-scan insertion fold only adds entries, and adds one per
declaration. -/
theorem prescanFold_lemma (tsd : TermSourceDict) :
    ∀ (ccjs : List CharacteristicCategoryJson) (cd r : Dict OntologyAnnotation),
      ccjs.foldlM (prescanStep tsd) cd = Except.ok r →
      (∀ k, (dictGet cd k).isSome = true → (dictGet r k).isSome = true) ∧
      (∀ ccj ∈ ccjs, (dictGet r ccj.id).isSome = true) := by
  intro ccjs
  induction ccjs with
  | nil =>
    intro cd r h
    simp only [List.foldlM_nil] at h
    have := Except.ok.inj h
    subst this
    exact ⟨fun k hk => hk, fun ccj hccj => absurd hccj (List.not_mem_nil ccj)⟩
  | cons ccj t ih =>
    intro cd r h
    simp only [List.foldlM_cons] at h
    obtain ⟨cd', hstep, hrest⟩ := exceptBindOk h
    unfold prescanStep at hstep
    obtain ⟨cc, hcc, hins⟩ := exceptBindOk hstep
    have hcd' := Except.ok.inj hins
    have hid := buildCharacteristicCategory_id tsd ccj cc hcc
    obtain ⟨mono_t, mem_t⟩ := ih cd' r hrest
    have hmono : ∀ k, (dictGet cd k).isSome = true → (dictGet r k).isSome = true := by
      intro k hk
      exact mono_t k (by rw [← hcd']; exact dictGet_insert_isSome cd cc.id cc k hk)
    refine ⟨hmono, ?_⟩
    intro c hc
    rcases List.mem_cons.mp hc with hc | hc
    · subst hc
      apply mono_t
      rw [← hcd', ← hid]
      simp [dictGet_insert_self]
    · exact mem_t c hc

/-- Pre-scan of one study only adds entries and covers every declaration of
every assay of that study. -/
theorem prescanStudy_lemma (tsd : TermSourceDict) :
    ∀ (ajs : List AssayJson) (cd r : Dict OntologyAnnotation),
      ajs.foldlM (prescanAssay tsd) cd = Except.ok r →
      (∀ k, (dictGet cd k).isSome = true → (dictGet r k).isSome = true) ∧
      (∀ aj ∈ ajs, ∀ ccj ∈ aj.characteristicCategories,
        (dictGet r ccj.id).isSome = true) := by
  intro ajs
  induction ajs with
  | nil =>
    intro cd r h
    simp only [List.foldlM_nil] at h
    have := Except.ok.inj h
    subst this
    exact ⟨fun k hk => hk, fun aj haj => absurd haj (List.not_mem_nil aj)⟩
  | cons aj t ih =>
    intro cd r h
    simp only [List.foldlM_cons] at h
    obtain ⟨cd', hstep, hrest⟩ := exceptBindOk h
    obtain ⟨monoA, memA⟩ := prescanFold_lemma tsd aj.characteristicCategories cd cd' hstep
    obtain ⟨mono_t, mem_t⟩ := ih cd' r hrest
    refine ⟨fun k hk => mono_t k (monoA k hk), ?_⟩
    intro a ha ccj hccj
    rcases List.mem_cons.mp ha with ha | ha
    · subst ha
      exact mono_t ccj.id (memA ccj hccj)
    · exact mem_t a ha ccj hccj

/-- The full pre-scan covers every assay-level characteristic-category
declaration of every study. -/
theorem prescan_complete (tsd : TermSourceDict) :
    ∀ (studies : List StudyJson) (cd r : Dict OntologyAnnotation),
      studies.foldlM (prescanStudy tsd) cd = Except.ok r →
      (∀ k, (dictGet cd k).isSome = true → (dictGet r k).isSome = true) ∧
      (∀ sj ∈ studies, ∀ aj ∈ sj.assays, ∀ ccj ∈ aj.characteristicCategories,
        (dictGet r ccj.id).isSome = true) := by
  intro studies
  induction studies with
  | nil =>
    intro cd r h
    simp only [List.foldlM_nil] at h
    have := Except.ok.inj h
    subst this
    exact ⟨fun k hk => hk, fun sj hsj => absurd hsj (List.not_mem_nil sj)⟩
  | cons sj t ih =>
    intro cd r h
    simp only [List.foldlM_cons] at h
    obtain ⟨cd', hstep, hrest⟩ := exceptBindOk h
    obtain ⟨monoS, memS⟩ := prescanStudy_lemma tsd sj.assays cd cd' hstep
    obtain ⟨mono_t, mem_t⟩ := ih cd' r hrest
    refine ⟨fun k hk => mono_t k (monoS k hk), ?_⟩
    intro s hs aj haj ccj hccj
    rcases List.mem_cons.mp hs with hs | hs
    · subst hs
      exact mono_t ccj.id (memS aj haj ccj hccj)
    · exact mem_t s hs aj haj ccj hccj

/-- The scope characteristic-category fold only adds entries to the
category pool. -/
theorem studyCCFold_mono (tsd : TermSourceDict) :
    ∀ (ccjs : List CharacteristicCategoryJson)
      (acc : List OntologyAnnotation × Dict OntologyAnnotation)
      (r : List OntologyAnnotation × Dict OntologyAnnotation) (k : String),
      ccjs.foldlM (characteristicCategoryStep tsd) acc = Except.ok r →
      (dictGet acc.2 k).isSome = true → (dictGet r.2 k).isSome = true := by
  intro ccjs
  induction ccjs with
  | nil =>
    intro acc r k h hk
    simp only [List.foldlM_nil] at h
    have := Except.ok.inj h
    subst this
    exact hk
  | cons ccj t ih =>
    intro acc r k h hk
    simp only [List.foldlM_cons] at h
    obtain ⟨acc', hstep, hrest⟩ := exceptBindOk h
    unfold characteristicCategoryStep at hstep
    obtain ⟨cc, hcc, hins⟩ := exceptBindOk hstep
    have hacc' := Except.ok.inj hins
    apply ih acc' r k hrest
    rw [← hacc']
    exact dictGet_insert_isSome acc.2 cc.id cc k hk

/-- The unit fold only adds entries to the unit pool, and adds one per
declaration. -/
theorem unitFold_lemma (tsd : TermSourceDict) :
    ∀ (ujs : List UnitJson) (ud r : Dict OntologyAnnotation),
      ujs.foldlM (unitStep tsd) ud = Except.ok r →
      (∀ k, (dictGet ud k).isSome = true → (dictGet r k).isSome = true) ∧
      (∀ uj ∈ ujs, (dictGet r uj.id).isSome = true) := by
  intro ujs
  induction ujs with
  | nil =>
    intro ud r h
    simp only [List.foldlM_nil] at h
    have := Except.ok.inj h
    subst this
    exact ⟨fun k hk => hk, fun uj huj => absurd huj (List.not_mem_nil uj)⟩
  | cons uj t ih =>
    intro ud r h
    simp only [List.foldlM_cons] at h
    obtain ⟨ud', hstep, hrest⟩ := exceptBindOk h
    unfold unitStep at hstep
    obtain ⟨u, hu, hins⟩ := exceptBindOk hstep
    have hud' := Except.ok.inj hins
    have hid := buildUnit_id tsd uj u hu
    obtain ⟨mono_t, mem_t⟩ := ih ud' r hrest
    have hmono : ∀ k, (dictGet ud k).isSome = true → (dictGet r k).isSome = true := by
      intro k hk
      exact mono_t k (by rw [← hud']; exact dictGet_insert_isSome ud u.id u k hk)
    refine ⟨hmono, ?_⟩
    intro w hw
    rcases List.mem_cons.mp hw with hw | hw
    · subst hw
      apply mono_t
      rw [← hud', ← hid]
      simp [dictGet_insert_self]
    · exact mem_t w hw

/-- One assay only adds to the category and unit pools. -/
theorem loadAssay_pools_mono (tsd : TermSourceDict) (pools : Pools) (aj : AssayJson)
    (r : Assay × Pools × List OntologyAnnotation)
    (h : loadAssay tsd pools aj = Except.ok r) (k : String) :
    ((dictGet pools.categories k).isSome = true →
      (dictGet r.2.1.categories k).isSome = true) ∧
    ((dictGet pools.units k).isSome = true →
      (dictGet r.2.1.units k).isSome = true) := by
  unfold loadAssay at h
  obtain ⟨mt, hmt, h⟩ := exceptBindOk h
  obtain ⟨tt, htt, h⟩ := exceptBindOk h
  obtain ⟨units1, hunits, h⟩ := exceptBindOk h
  obtain ⟨assaySamples, hsm, h⟩ := exceptBindOk h
  obtain ⟨cc, hcc, h⟩ := exceptBindOk h
  obtain ⟨om, hom, h⟩ := exceptBindOk h
  obtain ⟨pr, hpr, h⟩ := exceptBindOk h
  have hr := Except.ok.inj h
  rw [← hr]
  constructor
  · intro hk
    exact studyCCFold_mono tsd aj.characteristicCategories ([], pools.categories) cc k hcc hk
  · intro hk
    exact (unitFold_lemma tsd aj.unitCategories pools.units units1 hunits).1 k hk

/-- The assay fold only adds to the category and unit pools. -/
theorem loadAssays_pools_mono (tsd : TermSourceDict) :
    ∀ (ajs : List AssayJson) (acc : List Assay × Pools × List OntologyAnnotation)
      (r : List Assay × Pools × List OntologyAnnotation) (k : String),
      ajs.foldlM
        (fun acc aj => do
          let rr ← loadAssay tsd acc.2.1 aj
          pure (acc.1 ++ [rr.1], rr.2.1, acc.2.2 ++ rr.2.2)) acc = Except.ok r →
      ((dictGet acc.2.1.categories k).isSome = true →
        (dictGet r.2.1.categories k).isSome = true) ∧
      ((dictGet acc.2.1.units k).isSome = true →
        (dictGet r.2.1.units k).isSome = true) := by
  intro ajs
  induction ajs with
  | nil =>
    intro acc r k h
    simp only [List.foldlM_nil] at h
    have := Except.ok.inj h
    subst this
    exact ⟨fun hk => hk, fun hk => hk⟩
  | cons aj t ih =>
    intro acc r k h
    simp only [List.foldlM_cons] at h
    obtain ⟨acc', hstep, hrest⟩ := exceptBindOk h
    obtain ⟨rr, hrr, hpure⟩ := exceptBindOk hstep
    have hacc' := Except.ok.inj hpure
    obtain ⟨monoC, monoU⟩ := loadAssay_pools_mono tsd acc.2.1 aj rr hrr k
    obtain ⟨ihC, ihU⟩ := ih acc' r k hrest
    constructor
    · intro hk
      apply ihC
      rw [← hacc']
      exact monoC hk
    · intro hk
      apply ihU
      rw [← hacc']
      exact monoU hk

/-- One study only adds to the category and unit pools. -/
theorem loadStudy_pools_mono (tsd : TermSourceDict) (pools : Pools) (sj : StudyJson)
    (r : Study × Pools) (h : loadStudy tsd pools sj = Except.ok r) (k : String) :
    ((dictGet pools.categories k).isSome = true →
      (dictGet r.2.categories k).isSome = true) ∧
    ((dictGet pools.units k).isSome = true →
      (dictGet r.2.units k).isSome = true) := by
  unfold loadStudy at h
  obtain ⟨cc, hcc, h⟩ := exceptBindOk h
  obtain ⟨units1, hunits, h⟩ := exceptBindOk h
  obtain ⟨publications, hpub, h⟩ := exceptBindOk h
  obtain ⟨contacts, hcon, h⟩ := exceptBindOk h
  obtain ⟨dds, hdds, h⟩ := exceptBindOk h
  obtain ⟨prot, hprot, h⟩ := exceptBindOk h
  obtain ⟨fac, hfac, h⟩ := exceptBindOk h
  obtain ⟨src, hsrc, h⟩ := exceptBindOk h
  obtain ⟨smp, hsmp, h⟩ := exceptBindOk h
  obtain ⟨prc, hprc, h⟩ := exceptBindOk h
  obtain ⟨asy, hasy, h⟩ := exceptBindOk h
  have hr := Except.ok.inj h
  rw [← hr]
  obtain ⟨monoC, monoU⟩ := loadAssays_pools_mono tsd sj.assays
    ([], { samples := smp.2, sources := src.2, categories := cc.2,
           protocols := prot.2.1, factors := fac.2, parameters := prot.2.2,
           units := units1, processes := linkProcesses prc.2 sj.processSequence },
     []) asy k hasy
  constructor
  · intro hk
    exact monoC (studyCCFold_mono tsd sj.characteristicCategories
      ([], pools.categories) cc k hcc hk)
  · intro hk
    exact monoU ((unitFold_lemma tsd sj.unitCategories pools.units units1 hunits).1 k hk)

/-! ## Claim C5 -/

def protocolJsonC5 : ProtocolJson :=
  { id := "#protocol/p1", name := "assay protocol", uri := "", description := "",
    version := "", protocolType := annotationJson0,
    parameters := [{ id := "#parameter/par1", parameterName := annotationJson0 }],
    components := [] }

def assay1C5 : AssayJson :=
  { measurementType := annotationJson0, technologyType := annotationJson0,
    technologyPlatform := "", filename := "a_1.txt",
    unitCategories := [{ id := "#unit/u1", annotationValue := "mg", termSource := "",
                         termAccession := "" }],
    dataFiles := [], materials := { samples := [], otherMaterials := [] },
    characteristicCategories := [], processSequence := [] }

def processJsonC5 : ProcessJson :=
  { id := "#process/a2p1", executesProtocol := "#protocol/p1", name := none,
    comments := none, date := none, performer := none,
    parameterValues := [{ category := "#parameter/par1", value := ValueJson.vNum 5,
                          unit := some "#unit/u1" }],
    inputs := [], outputs := [], previousProcess := none, nextProcess := none }

def assay2C5 : AssayJson :=
  { measurementType := annotationJson0, technologyType := annotationJson0,
    technologyPlatform := "", filename := "a_2.txt", unitCategories := [],
    dataFiles := [], materials := { samples := [], otherMaterials := [] },
    characteristicCategories := [], processSequence := [processJsonC5] }

def studyC5 : StudyJson :=
  { studyJson0 with
    protocols := [protocolJsonC5],
    assays := [assay1C5, assay2C5] }

def docC5 : InvestigationJson := invJson0 [studyC5]

/-- C5 (counterexample): a unit declared only inside the first assay
resolves from a parameter value of the second (sibling) assay of the same
study — the assay-level pool entry leaks outside its declaring assay, and
the whole document loads without error. -/
theorem C5_counterexample :
    (load docC5).isOk = true ∧
    (match load docC5 with
     | Except.ok inv =>
       (((inv.studies.head?.bind (fun s => s.assays[1]?)).bind
           (fun a => a.processSequence.head?)).bind
         (fun p => p.parameterValues.head?)).map (fun pv => pv.unit)
     | Except.error _ => none) =
      some (some { id := "#unit/u1", name := "mg", termSource := none,
                   termAccession := "" }) := by
  decide

/-- C5 (amended): the loader keeps a single category pool and a single unit
pool for the whole document, so study-level declarations are visible inside
assays, but assay-level declarations are NOT scoped to their assay: every
unit declared in a scope lands in the shared pool, an assay never removes
entries from the pools it returns (so its declarations remain visible to
later sibling assays), and a study passes its accumulated pools on to later
studies. -/
theorem C5_pool_sharing :
    (∀ (tsd : TermSourceDict) (ujs : List UnitJson) (ud r : Dict OntologyAnnotation),
      studyUnitCategories tsd ud ujs = Except.ok r →
      (∀ k, (dictGet ud k).isSome = true → (dictGet r k).isSome = true) ∧
      (∀ uj ∈ ujs, (dictGet r uj.id).isSome = true)) ∧
    (∀ (tsd : TermSourceDict) (pools : Pools) (aj : AssayJson)
        (r : Assay × Pools × List OntologyAnnotation) (k : String),
      loadAssay tsd pools aj = Except.ok r →
      (dictGet pools.units k).isSome = true →
      (dictGet r.2.1.units k).isSome = true) ∧
    (∀ (tsd : TermSourceDict) (pools : Pools) (sj : StudyJson) (r : Study × Pools)
        (k : String),
      loadStudy tsd pools sj = Except.ok r →
      (dictGet pools.units k).isSome = true →
      (dictGet r.2.units k).isSome = true) := by
  refine ⟨?_, ?_, ?_⟩
  · intro tsd ujs ud r h
    exact unitFold_lemma tsd ujs ud r h
  · intro tsd pools aj r k h hk
    exact (loadAssay_pools_mono tsd pools aj r h k).2 hk
  · intro tsd pools sj r k h hk
    exact (loadStudy_pools_mono tsd pools sj r h k).2 hk

def unitAnnU1 : OntologyAnnotation :=
  { id := "#unit/u1", name := "mg", termSource := none, termAccession := "" }

/-- C5 (witness): declaring `#unit/u1` puts it in the shared pool, and an
assay carrying that declaration returns a pool still containing it. -/
theorem C5_pool_sharing_witness :
    ((dictGet ([("#unit/u0", unitAnnU1)] : Dict OntologyAnnotation) "#unit/u0").isSome = true →
      (dictGet [("#unit/u0", unitAnnU1), ("#unit/u1", unitAnnU1)] "#unit/u0").isSome = true) ∧
    (∀ uj ∈ [({ id := "#unit/u1", annotationValue := "mg", termSource := "",
                termAccession := "" } : UnitJson)],
      (dictGet ([("#unit/u0", unitAnnU1), ("#unit/u1", unitAnnU1)] :
        Dict OntologyAnnotation) uj.id).isSome = true) := by
  have h := C5_pool_sharing.1 [("", none)]
    [{ id := "#unit/u1", annotationValue := "mg", termSource := "", termAccession := "" }]
    [("#unit/u0", unitAnnU1)]
    [("#unit/u0", unitAnnU1), ("#unit/u1", unitAnnU1)] (by decide)
  exact ⟨h.1 "#unit/u0", h.2⟩

/-! ## Claim C9 -/

def sourceJsonC9 : SourceJson :=
  { id := "#source/s1", name := "source-alpha",
    characteristics := [{ category := "#characteristic_category/assaycat",
                          value := ValueJson.vStr "ok", unit := none }] }

def study1C9 : StudyJson :=
  { studyJson0 with
    identifier := "S1",
    materials := { sources := [sourceJsonC9], samples := [] } }

def assayJsonC9 : AssayJson :=
  { measurementType := annotationJson0, technologyType := annotationJson0,
    technologyPlatform := "", filename := "a_c9.txt", unitCategories := [],
    dataFiles := [], materials := { samples := [], otherMaterials := [] },
    characteristicCategories := [{ id := "#characteristic_category/assaycat",
                                   characteristicType := annotationJson0 }],
    processSequence := [] }

def study2C9 : StudyJson :=
  { studyJson0 with identifier := "S2", assays := [assayJsonC9] }

def docC9 : InvestigationJson := invJson0 [study1C9, study2C9]

/-- C9: the assay-category pre-scan runs over every assay of every study
before any study is processed and inserts every declaration into the shared
category pool; study processing only ever adds to that pool (both at study
level and per assay), so the pool visible when any study's sources and
samples are built contains every assay-declared category. Concretely, a
study-1 source characteristic whose category is declared only inside an
assay of study 2 resolves successfully. -/
theorem C9_prescan_categories :
    (∀ (tsd : TermSourceDict) (studies : List StudyJson)
        (r : Dict OntologyAnnotation),
      prescanAssayCategories tsd studies = Except.ok r →
      ∀ sj ∈ studies, ∀ aj ∈ sj.assays, ∀ ccj ∈ aj.characteristicCategories,
        (dictGet r ccj.id).isSome = true) ∧
    (∀ (tsd : TermSourceDict) (cats : Dict OntologyAnnotation)
        (ccjs : List CharacteristicCategoryJson)
        (r : List OntologyAnnotation × Dict OntologyAnnotation) (k : String),
      studyCharacteristicCategories tsd cats ccjs = Except.ok r →
      (dictGet cats k).isSome = true → (dictGet r.2 k).isSome = true) ∧
    (∀ (tsd : TermSourceDict) (pools : Pools) (sj : StudyJson) (r : Study × Pools)
        (k : String),
      loadStudy tsd pools sj = Except.ok r →
      (dictGet pools.categories k).isSome = true →
      (dictGet r.2.categories k).isSome = true) ∧
    ((match load docC9 with
      | Except.ok inv =>
        ((inv.studies.head?.bind (fun s => s.sources.head?)).bind
          (fun s => s.characteristics.head?)).map (fun c => c.category.id)
      | Except.error _ => none) = some "#characteristic_category/assaycat") := by
  refine ⟨?_, ?_, ?_, by decide⟩
  · intro tsd studies r h
    exact (prescan_complete tsd studies [] r h).2
  · intro tsd cats ccjs r k h hk
    exact studyCCFold_mono tsd ccjs ([], cats) r k h hk
  · intro tsd pools sj r k h hk
    exact (loadStudy_pools_mono tsd pools sj r h k).1 hk

def assayCatAnn : OntologyAnnotation :=
  { id := "#characteristic_category/assaycat", name := "", termSource := none,
    termAccession := "" }

/-- C9 (witness): the pre-scan over `docC9`'s studies yields a pool that
contains the category declared only inside study 2's assay. -/
theorem C9_prescan_categories_witness :
    (dictGet ([("#characteristic_category/assaycat", assayCatAnn)] :
      Dict OntologyAnnotation) "#characteristic_category/assaycat").isSome = true := by
  have h := C9_prescan_categories.1 [("", none)] [study1C9, study2C9]
    [("#characteristic_category/assaycat", assayCatAnn)] (by decide)
    study2C9 (by decide) assayJsonC9 (by decide)
    { id := "#characteristic_category/assaycat", characteristicType := annotationJson0 }
    (by decide)
  exact h

/-! ## Structural validator: the raw JSON tree

`validate_isajson` walks the raw parsed document, not the loader's typed
view, so it gets its own generic tree type: a node is a mapping of named
children, a sequence, or a scalar. -/

mutual
inductive JTree where
  | str : String → JTree
  | num : Int → JTree
  | null : JTree
  | obj : JFields → JTree
  | arr : JElems → JTree
deriving DecidableEq
inductive JFields where
  | fnil : JFields
  | fcons : String → JTree → JFields → JFields
deriving DecidableEq
inductive JElems where
  | enil : JElems
  | econs : JTree → JElems → JElems
deriving DecidableEq
end

def JFields.keys : JFields → List String
  | JFields.fnil => []
  | JFields.fcons k _ rest => k :: JFields.keys rest

def JFields.getKey : JFields → String → Option JTree
  | JFields.fnil, _ => none
  | JFields.fcons k v rest, k' => if k == k' then some v else JFields.getKey rest k'

def JFields.hasKey (fs : JFields) (k : String) : Bool :=
  (JFields.keys fs).contains k

def JElems.toList : JElems → List JTree
  | JElems.enil => []
  | JElems.econs v rest => v :: JElems.toList rest

/-- `set(keys) == set(l)`. -/
def keySetEq (fs : JFields) (l : List String) : Bool :=
  (JFields.keys fs).all (fun k => l.contains k) &&
    l.all (fun k => (JFields.keys fs).contains k)

/-- A reference node: a mapping whose only key is `@id`
(`'@id' in set(keys) and len(set(keys)) == 1`). -/
def isRefNodeF (fs : JFields) : Bool :=
  JFields.hasKey fs "@id" && (JFields.keys fs).all (fun k => k == "@id")

/-- A declaration node: a mapping with `@id` plus at least one other key
(`'@id' in set(keys) and len(set(keys)) > 1`). -/
def isDeclNodeF (fs : JFields) : Bool :=
  JFields.hasKey fs "@id" && (JFields.keys fs).any (fun k => !(k == "@id"))

/-- The `@id` value of a node known to carry one. -/
def fieldId (fs : JFields) : JTree :=
  (JFields.getKey fs "@id").getD JTree.null

/-- `str(x)` as used when formatting report messages; documents put strings
in the rendered positions, where this matches Python exactly. -/
def jShow : JTree → String
  | JTree.str s => s
  | JTree.num n => toString n
  | JTree.null => "None"
  | JTree.obj _ => "<object>"
  | JTree.arr _ => "<list>"

/-- The validator's accumulating report (`ValidationReport`): modelled from
the spec's report sink, a per-file accumulator with `warn` / `error` /
`fatal` message lists. -/
structure ValidationReport where
  fileName : String
  warnings : List String
  errors : List String
  fatals : List String
deriving DecidableEq

def ValidationReport.warn (r : ValidationReport) (m : String) : ValidationReport :=
  { r with warnings := r.warnings ++ [m] }

def ValidationReport.addError (r : ValidationReport) (m : String) : ValidationReport :=
  { r with errors := r.errors ++ [m] }

def emptyReport (fileName : String) : ValidationReport :=
  { fileName := fileName, warnings := [], errors := [], fatals := [] }

/- `_collect_object_refs`: gather (deduplicated) the `@id`s of every
declaration node, in depth-first key order. -/
mutual
def collectObjectRefsT : JTree → List JTree → List JTree
  | JTree.obj fs, acc =>
    collectObjectRefsF fs
      (if isDeclNodeF fs && !(acc.contains (fieldId fs)) then acc ++ [fieldId fs] else acc)
  | JTree.arr es, acc => collectObjectRefsE es acc
  | _, acc => acc
def collectObjectRefsF : JFields → List JTree → List JTree
  | JFields.fnil, acc => acc
  | JFields.fcons _ v rest, acc => collectObjectRefsF rest (collectObjectRefsT v acc)
def collectObjectRefsE : JElems → List JTree → List JTree
  | JElems.enil, acc => acc
  | JElems.econs v rest, acc => collectObjectRefsE rest (collectObjectRefsT v acc)
end

/- `_check_object_refs`: every reference node whose `@id` is not among the
declared ids — except the reserved `#parameter/Array_Design_REF` sentinel —
appends one error; the walk continues over the whole tree regardless. -/
mutual
def checkObjectRefsT : JTree → List JTree → ValidationReport → ValidationReport
  | JTree.obj fs, objectRefs, report =>
    checkObjectRefsF fs objectRefs
      (if isRefNodeF fs && !(objectRefs.contains (fieldId fs)) &&
          !(fieldId fs == JTree.str "#parameter/Array_Design_REF") then
        report.addError ("Object reference " ++ jShow (fieldId fs) ++ " not declared anywhere")
      else report)
  | JTree.arr es, objectRefs, report => checkObjectRefsE es objectRefs report
  | _, _, report => report
def checkObjectRefsF : JFields → List JTree → ValidationReport → ValidationReport
  | JFields.fnil, _, report => report
  | JFields.fcons _ v rest, objectRefs, report =>
    checkObjectRefsF rest objectRefs (checkObjectRefsT v objectRefs report)
def checkObjectRefsE : JElems → List JTree → ValidationReport → ValidationReport
  | JElems.enil, _, report => report
  | JElems.econs v rest, objectRefs, report =>
    checkObjectRefsE rest objectRefs (checkObjectRefsT v objectRefs report)
end

/- The declared ids of the tree: the `@id` of every declaration node. -/
mutual
def declaredIdsT : JTree → List JTree
  | JTree.obj fs => (if isDeclNodeF fs then [fieldId fs] else []) ++ declaredIdsF fs
  | JTree.arr es => declaredIdsE es
  | _ => []
def declaredIdsF : JFields → List JTree
  | JFields.fnil => []
  | JFields.fcons _ v rest => declaredIdsT v ++ declaredIdsF rest
def declaredIdsE : JElems → List JTree
  | JElems.enil => []
  | JElems.econs v rest => declaredIdsT v ++ declaredIdsE rest
end

/- The number of reference-node occurrences whose `@id` is outside the
given declared set and is not the reserved sentinel. -/
mutual
def badRefCountT : List JTree → JTree → Nat
  | decl, JTree.obj fs =>
    (if isRefNodeF fs && !(decl.contains (fieldId fs)) &&
        !(fieldId fs == JTree.str "#parameter/Array_Design_REF") then 1 else 0) +
      badRefCountF decl fs
  | decl, JTree.arr es => badRefCountE decl es
  | _, _ => 0
def badRefCountF : List JTree → JFields → Nat
  | _, JFields.fnil => 0
  | decl, JFields.fcons _ v rest => badRefCountT decl v + badRefCountF decl rest
def badRefCountE : List JTree → JElems → Nat
  | _, JElems.enil => 0
  | decl, JElems.econs v rest => badRefCountT decl v + badRefCountE decl rest
end

/- The reference check counts: each walk appends exactly one error per bad
reference occurrence it passes, never touches warnings, and never stops. -/
mutual
theorem checkCountT : ∀ (t : JTree) (refs : List JTree) (rep : ValidationReport),
    (checkObjectRefsT t refs rep).errors.length =
      rep.errors.length + badRefCountT refs t ∧
    (checkObjectRefsT t refs rep).warnings = rep.warnings
  | JTree.obj fs, refs, rep => by
    simp only [checkObjectRefsT, badRefCountT]
    by_cases hc : (isRefNodeF fs && !refs.contains (fieldId fs) &&
        !(fieldId fs == JTree.str "#parameter/Array_Design_REF")) = true
    · obtain ⟨hlen, hwarn⟩ := checkCountF fs refs
        ((rep.addError ("Object reference " ++ jShow (fieldId fs) ++ " not declared anywhere")))
      rw [if_pos hc, if_pos hc]
      refine ⟨?_, by rw [hwarn]; rfl⟩
      rw [hlen]
      simp only [ValidationReport.addError, List.length_append, List.length_cons,
        List.length_nil]
      omega
    · obtain ⟨hlen, hwarn⟩ := checkCountF fs refs rep
      rw [if_neg hc, if_neg hc]
      exact ⟨by rw [hlen]; omega, hwarn⟩
  | JTree.arr es, refs, rep => by
    simpa only [checkObjectRefsT, badRefCountT] using checkCountE es refs rep
  | JTree.str s, refs, rep => by simp [checkObjectRefsT, badRefCountT]
  | JTree.num n, refs, rep => by simp [checkObjectRefsT, badRefCountT]
  | JTree.null, refs, rep => by simp [checkObjectRefsT, badRefCountT]
theorem checkCountF : ∀ (fs : JFields) (refs : List JTree) (rep : ValidationReport),
    (checkObjectRefsF fs refs rep).errors.length =
      rep.errors.length + badRefCountF refs fs ∧
    (checkObjectRefsF fs refs rep).warnings = rep.warnings
  | JFields.fnil, refs, rep => by simp [checkObjectRefsF, badRefCountF]
  | JFields.fcons k v rest, refs, rep => by
    obtain ⟨hv, hvw⟩ := checkCountT v refs rep
    obtain ⟨hr, hrw⟩ := checkCountF rest refs (checkObjectRefsT v refs rep)
    simp only [checkObjectRefsF, badRefCountF]
    refine ⟨?_, by rw [hrw, hvw]⟩
    rw [hr, hv]
    omega
theorem checkCountE : ∀ (es : JElems) (refs : List JTree) (rep : ValidationReport),
    (checkObjectRefsE es refs rep).errors.length =
      rep.errors.length + badRefCountE refs es ∧
    (checkObjectRefsE es refs rep).warnings = rep.warnings
  | JElems.enil, refs, rep => by simp [checkObjectRefsE, badRefCountE]
  | JElems.econs v rest, refs, rep => by
    obtain ⟨hv, hvw⟩ := checkCountT v refs rep
    obtain ⟨hr, hrw⟩ := checkCountE rest refs (checkObjectRefsT v refs rep)
    simp only [checkObjectRefsE, badRefCountE]
    refine ⟨?_, by rw [hrw, hvw]⟩
    rw [hr, hv]
    omega
end

/- The collected reference list holds exactly the incoming accumulator plus
the declared ids of the tree. -/
mutual
theorem collectMemT : ∀ (t : JTree) (acc : List JTree) (x : JTree),
    x ∈ collectObjectRefsT t acc ↔ x ∈ acc ∨ x ∈ declaredIdsT t
  | JTree.obj fs, acc, x => by
    simp only [collectObjectRefsT, declaredIdsT]
    rw [collectMemF fs _ x]
    by_cases h1 : isDeclNodeF fs = true
    · by_cases h2 : acc.contains (fieldId fs) = true
      · have hmem : fieldId fs ∈ acc := by simpa using h2
        simp only [h1, h2, Bool.not_true, Bool.and_false, Bool.false_eq_true, if_false,
          if_true, List.mem_append, List.mem_singleton]
        constructor
        · rintro (h | h)
          · exact Or.inl h
          · exact Or.inr (Or.inr h)
        · rintro (h | rfl | h)
          · exact Or.inl h
          · exact Or.inl hmem
          · exact Or.inr h
      · simp only [h1, h2, Bool.not_false, Bool.and_true, if_true, List.mem_append,
          List.mem_singleton]
        tauto
    · have h1' : isDeclNodeF fs = false := by
        cases hv : isDeclNodeF fs
        · rfl
        · exact absurd hv h1
      simp [h1']
  | JTree.arr es, acc, x => by
    simpa only [collectObjectRefsT, declaredIdsT] using collectMemE es acc x
  | JTree.str s, acc, x => by simp [collectObjectRefsT, declaredIdsT]
  | JTree.num n, acc, x => by simp [collectObjectRefsT, declaredIdsT]
  | JTree.null, acc, x => by simp [collectObjectRefsT, declaredIdsT]
theorem collectMemF : ∀ (fs : JFields) (acc : List JTree) (x : JTree),
    x ∈ collectObjectRefsF fs acc ↔ x ∈ acc ∨ x ∈ declaredIdsF fs
  | JFields.fnil, acc, x => by simp [collectObjectRefsF, declaredIdsF]
  | JFields.fcons k v rest, acc, x => by
    simp only [collectObjectRefsF, declaredIdsF]
    rw [collectMemF rest _ x, collectMemT v acc x]
    simp only [List.mem_append]
    tauto
theorem collectMemE : ∀ (es : JElems) (acc : List JTree) (x : JTree),
    x ∈ collectObjectRefsE es acc ↔ x ∈ acc ∨ x ∈ declaredIdsE es
  | JElems.enil, acc, x => by simp [collectObjectRefsE, declaredIdsE]
  | JElems.econs v rest, acc, x => by
    simp only [collectObjectRefsE, declaredIdsE]
    rw [collectMemE rest _ x, collectMemT v acc x]
    simp only [List.mem_append]
    tauto
end

/- The bad-reference count only depends on the membership of the declared
set. -/
mutual
theorem badExtT : ∀ (t : JTree) (r1 r2 : List JTree),
    (∀ x, x ∈ r1 ↔ x ∈ r2) → badRefCountT r1 t = badRefCountT r2 t
  | JTree.obj fs, r1, r2, h => by
    have hcontains : r1.contains (fieldId fs) = r2.contains (fieldId fs) := by
      by_cases hm : fieldId fs ∈ r1
      · have hm2 := (h _).mp hm
        simp [hm, hm2]
      · have hm2 : fieldId fs ∉ r2 := fun hh => hm ((h _).mpr hh)
        simp [hm, hm2]
    simp only [badRefCountT, hcontains]
    rw [badExtF fs r1 r2 h]
  | JTree.arr es, r1, r2, h => by
    simpa only [badRefCountT] using badExtE es r1 r2 h
  | JTree.str s, r1, r2, h => rfl
  | JTree.num n, r1, r2, h => rfl
  | JTree.null, r1, r2, h => rfl
theorem badExtF : ∀ (fs : JFields) (r1 r2 : List JTree),
    (∀ x, x ∈ r1 ↔ x ∈ r2) → badRefCountF r1 fs = badRefCountF r2 fs
  | JFields.fnil, r1, r2, h => rfl
  | JFields.fcons k v rest, r1, r2, h => by
    simp only [badRefCountF]
    rw [badExtT v r1 r2 h, badExtF rest r1 r2 h]
theorem badExtE : ∀ (es : JElems) (r1 r2 : List JTree),
    (∀ x, x ∈ r1 ↔ x ∈ r2) → badRefCountE r1 es = badRefCountE r2 es
  | JElems.enil, r1, r2, h => rfl
  | JElems.econs v rest, r1, r2, h => by
    simp only [badRefCountE]
    rw [badExtT v r1 r2 h, badExtE rest r1 r2 h]
end

/-! ## Claim C7 -/

/-- C7: when exactly one reference node of the document (a mapping whose
only key is `@id`) carries an identifier with no matching declaration node
anywhere in the tree (and that identifier is not the reserved sentinel),
the object-reference check — run, as the validator runs it, against the
collected declaration ids — appends exactly one "not declared" error to the
report, leaves the warnings untouched, and scans the whole tree to
completion (the count accounts for every node); a reference node carrying
the reserved `#parameter/Array_Design_REF` sentinel never produces an
error. -/
theorem C7_unresolved_ref_error :
    (∀ (t : JTree) (report : ValidationReport),
      badRefCountT (declaredIdsT t) t = 1 →
      (checkObjectRefsT t (collectObjectRefsT t []) report).errors.length =
        report.errors.length + 1 ∧
      (checkObjectRefsT t (collectObjectRefsT t []) report).warnings =
        report.warnings) ∧
    (∀ (refs : List JTree) (report : ValidationReport),
      checkObjectRefsT
        (JTree.obj (JFields.fcons "@id" (JTree.str "#parameter/Array_Design_REF")
          JFields.fnil)) refs report = report) := by
  constructor
  · intro t report h
    obtain ⟨hlen, hwarn⟩ := checkCountT t (collectObjectRefsT t []) report
    have hbad : badRefCountT (collectObjectRefsT t []) t =
        badRefCountT (declaredIdsT t) t := by
      apply badExtT
      intro x
      rw [collectMemT t [] x]
      simp
    refine ⟨?_, hwarn⟩
    rw [hlen, hbad, h]
  · intro refs report
    have hsent : (!(fieldId (JFields.fcons "@id"
        (JTree.str "#parameter/Array_Design_REF") JFields.fnil) ==
          JTree.str "#parameter/Array_Design_REF")) = false := by decide
    simp [checkObjectRefsT, checkObjectRefsF, hsent]

/-- A document with one declaration node (`#protocol/extraction`) and one
reference node naming the undeclared `#protocol/missing`. -/
def tC7 : JTree :=
  JTree.obj (JFields.fcons "protocols"
    (JTree.arr (JElems.econs
      (JTree.obj (JFields.fcons "@id" (JTree.str "#protocol/extraction")
        (JFields.fcons "name" (JTree.str "extraction") JFields.fnil)))
      JElems.enil))
    (JFields.fcons "processSequence"
      (JTree.arr (JElems.econs
        (JTree.obj (JFields.fcons "executesProtocol"
          (JTree.obj (JFields.fcons "@id" (JTree.str "#protocol/missing") JFields.fnil))
          JFields.fnil))
        JElems.enil))
      JFields.fnil))

/-- C7 (witness): on `tC7` the check appends exactly one error to a fresh
report and no warnings. -/
theorem C7_unresolved_ref_error_witness :
    (checkObjectRefsT tC7 (collectObjectRefsT tC7 []) (emptyReport "i.json")).errors.length =
      (emptyReport "i.json").errors.length + 1 ∧
    (checkObjectRefsT tC7 (collectObjectRefsT tC7 []) (emptyReport "i.json")).warnings =
      (emptyReport "i.json").warnings :=
  C7_unresolved_ref_error.1 tC7 (emptyReport "i.json") (by decide)

/-! ## Structural validator: the full `validate_isajson` pipeline -/

/-- Failures that abort the validator: the re-raised schema validation
error, or an uncaught `KeyError` / `TypeError` from subscripting the raw
tree. -/
inductive VErr where
  | schemaError : VErr
  | keyError : String → VErr
  | typeError : String → VErr
deriving DecidableEq

/-- `node[k]`: `KeyError` on a missing key, `TypeError` on a non-mapping. -/
def jGet : JTree → String → Except VErr JTree
  | JTree.obj fs, k =>
    match JFields.getKey fs k with
    | some v => Except.ok v
    | none => Except.error (VErr.keyError k)
  | _, _ => Except.error (VErr.typeError "not subscriptable")

/-- `for x in node`: iteration over a sequence node. -/
def jList : JTree → Except VErr (List JTree)
  | JTree.arr es => Except.ok (JElems.toList es)
  | _ => Except.error (VErr.typeError "not iterable")

/-- Modelled from the spec: the validator's external collaborators —
the JSON-schema validator, the ISO-8601 date / PubMed id / DOI format
checks, the data-file existence check against the document's directory
context, the `os.path.dirname` helper and the secondary load-and-link
pass — are outside `src/`. Per the spec they are synchronous calls whose
only observable effect is appending findings to the report (the schema
check instead raises on failure), so each is a fixed report transformer. -/
structure Externals where
  schemaOk : JTree → Bool
  checkIso8601Date : JTree → ValidationReport → ValidationReport
  checkPubmedId : JTree → ValidationReport → ValidationReport
  checkDoi : JTree → ValidationReport → ValidationReport
  checkDataFiles : JTree → String → ValidationReport → ValidationReport
  dirName : String → String
  secondaryLoadPass : JTree → ValidationReport → ValidationReport

/-- `_check_filenames`: warn on every empty study or assay filename. The
source compares with `is ''`, which for interned empty strings is equality
with `""`. -/
def checkFilenames (t : JTree) (report : ValidationReport) :
    Except VErr ValidationReport := do
  let studies ← jList (← jGet t "studies")
  studies.foldlM
    (fun rep study => do
      let fn ← jGet study "filename"
      let rep1 := if fn == JTree.str "" then rep.warn "A study filename is missing" else rep
      let assays ← jList (← jGet study "assays")
      assays.foldlM
        (fun rep assay => do
          let afn ← jGet assay "filename"
          pure (if afn == JTree.str "" then rep.warn "An assay filename is missing" else rep))
        rep1)
    report

/-- `_check_ontology_sources`: build the declared term-source name list
(seeded with `''`), warning on and excluding empty names. -/
def checkOntologySources (t : JTree) (report : ValidationReport) :
    Except VErr (List JTree × ValidationReport) := do
  let oss ← jList (← jGet t "ontologySourceReferences")
  oss.foldlM
    (fun acc os => do
      let nm ← jGet os "name"
      if nm == JTree.str "" then
        pure (acc.1, acc.2.warn
          "An Ontology Source Reference is missing Term Source Name, so can't be referenced")
      else pure (acc.1 ++ [nm], acc.2))
    ([JTree.str ""], report)

/-- `_check_date_formats`: investigation and study submission/release dates
and every study process date go through the external ISO-8601 check. -/
def checkDateFormats (ext : Externals) (t : JTree) (report : ValidationReport) :
    Except VErr ValidationReport := do
  let r1 := ext.checkIso8601Date (← jGet t "publicReleaseDate") report
  let r2 := ext.checkIso8601Date (← jGet t "submissionDate") r1
  let studies ← jList (← jGet t "studies")
  studies.foldlM
    (fun rep study => do
      let rep1 := ext.checkIso8601Date (← jGet study "publicReleaseDate") rep
      let rep2 := ext.checkIso8601Date (← jGet study "submissionDate") rep1
      let procs ← jList (← jGet study "processSequence")
      procs.foldlM
        (fun rep p => do
          pure (ext.checkIso8601Date (← jGet p "date") rep))
        rep2)
    r2

/- `_check_term_source_refs`: recursively warn on every annotation-shaped
node (`annotationValue`/`termAccession`/`termSource` keys, optionally with
`@id`) whose term source is not among the declared names. -/
mutual
def checkTermSourceRefsT : JTree → List JTree → ValidationReport → ValidationReport
  | JTree.obj fs, refs, report =>
    checkTermSourceRefsF fs refs
      (if keySetEq fs ["annotationValue", "termAccession", "termSource"] ||
          keySetEq fs ["@id", "annotationValue", "termAccession", "termSource"] then
        if !(refs.contains ((JFields.getKey fs "termSource").getD JTree.null)) then
          report.warn ("Annotation " ++
            jShow ((JFields.getKey fs "annotationValue").getD JTree.null) ++
            " references " ++ jShow ((JFields.getKey fs "termSource").getD JTree.null) ++
            " term source that has not been declared")
        else report
      else report)
  | JTree.arr es, refs, report => checkTermSourceRefsE es refs report
  | _, _, report => report
def checkTermSourceRefsF : JFields → List JTree → ValidationReport → ValidationReport
  | JFields.fnil, _, report => report
  | JFields.fcons _ v rest, refs, report =>
    checkTermSourceRefsF rest refs (checkTermSourceRefsT v refs report)
def checkTermSourceRefsE : JElems → List JTree → ValidationReport → ValidationReport
  | JElems.enil, _, report => report
  | JElems.econs v rest, refs, report =>
    checkTermSourceRefsE rest refs (checkTermSourceRefsT v refs report)
end

/-- `_check_pubmed_ids`: all investigation- and study-level publication
PubMed ids go through the external format check. -/
def checkPubmedIds (ext : Externals) (t : JTree) (report : ValidationReport) :
    Except VErr ValidationReport := do
  let ipubs ← jList (← jGet t "publications")
  let r1 ← ipubs.foldlM
    (fun rep pub => do pure (ext.checkPubmedId (← jGet pub "pubMedID") rep)) report
  let studies ← jList (← jGet t "studies")
  studies.foldlM
    (fun rep study => do
      let spubs ← jList (← jGet study "publications")
      spubs.foldlM
        (fun rep pub => do pure (ext.checkPubmedId (← jGet pub "pubMedID") rep)) rep)
    r1

/-- `_check_dois`. -/
def checkDois (ext : Externals) (t : JTree) (report : ValidationReport) :
    Except VErr ValidationReport := do
  let ipubs ← jList (← jGet t "publications")
  let r1 ← ipubs.foldlM
    (fun rep pub => do pure (ext.checkDoi (← jGet pub "doi") rep)) report
  let studies ← jList (← jGet t "studies")
  studies.foldlM
    (fun rep study => do
      let spubs ← jList (← jGet study "publications")
      spubs.foldlM
        (fun rep pub => do pure (ext.checkDoi (← jGet pub "doi") rep)) rep)
    r1

/-- `_check_protocol_names`: warn per empty protocol name (the collected
name list is discarded by the caller). -/
def checkProtocolNames (t : JTree) (report : ValidationReport) :
    Except VErr ValidationReport := do
  let studies ← jList (← jGet t "studies")
  studies.foldlM
    (fun rep study => do
      let prots ← jList (← jGet study "protocols")
      prots.foldlM
        (fun rep prot => do
          let nm ← jGet prot "name"
          pure (if nm == JTree.str "" then
            rep.warn "A Protocol is missing Protocol Name, so can't be referenced in ISA-tab"
          else rep))
        rep)
    report

/-- `_check_protocol_parameter_names`. -/
def checkProtocolParameterNames (t : JTree) (report : ValidationReport) :
    Except VErr ValidationReport := do
  let studies ← jList (← jGet t "studies")
  studies.foldlM
    (fun rep study => do
      let prots ← jList (← jGet study "protocols")
      prots.foldlM
        (fun rep prot => do
          let params ← jList (← jGet prot "parameters")
          params.foldlM
            (fun rep param => do
              let nm ← jGet param "parameterName"
              pure (if nm == JTree.str "" then
                rep.warn "A Protocol Parameter is missing Name, so can't be referenced in ISA-tab"
              else rep))
            rep)
        rep)
    report

/-- `_check_study_factor_names` (the source's accumulated reference list —
which it mistakenly appends to itself — is discarded by the caller; only
the warnings are observable). -/
def checkStudyFactorNames (t : JTree) (report : ValidationReport) :
    Except VErr ValidationReport := do
  let studies ← jList (← jGet t "studies")
  studies.foldlM
    (fun rep study => do
      let facs ← jList (← jGet study "factors")
      facs.foldlM
        (fun rep fac => do
          let nm ← jGet fac "factorName"
          pure (if nm == JTree.str "" then
            rep.warn "A Study Factor is missing Name, so can't be referenced in ISA-tab"
          else rep))
        rep)
    report

/- `_collect_id_refs`: deduplicated `@id` values of reference nodes. -/
mutual
def collectIdRefsT : JTree → List JTree → List JTree
  | JTree.obj fs, acc =>
    collectIdRefsF fs
      (if isRefNodeF fs && !(acc.contains (fieldId fs)) then acc ++ [fieldId fs] else acc)
  | JTree.arr es, acc => collectIdRefsE es acc
  | _, acc => acc
def collectIdRefsF : JFields → List JTree → List JTree
  | JFields.fnil, acc => acc
  | JFields.fcons _ v rest, acc => collectIdRefsF rest (collectIdRefsT v acc)
def collectIdRefsE : JElems → List JTree → List JTree
  | JElems.enil, acc => acc
  | JElems.econs v rest, acc => collectIdRefsE rest (collectIdRefsT v acc)
end

/- `_collect_term_source_refs`: deduplicated `termSource` values of nodes
with a `termSource` key and exactly three distinct keys. -/
mutual
def collectTermSourceRefsT : JTree → List JTree → List JTree
  | JTree.obj fs, acc =>
    collectTermSourceRefsF fs
      (if (JFields.keys fs).contains "termSource" &&
          ((JFields.keys fs).dedup.length == 3) &&
          !(acc.contains ((JFields.getKey fs "termSource").getD JTree.null)) then
        acc ++ [(JFields.getKey fs "termSource").getD JTree.null]
      else acc)
  | JTree.arr es, acc => collectTermSourceRefsE es acc
  | _, acc => acc
def collectTermSourceRefsF : JFields → List JTree → List JTree
  | JFields.fnil, acc => acc
  | JFields.fcons _ v rest, acc => collectTermSourceRefsF rest (collectTermSourceRefsT v acc)
def collectTermSourceRefsE : JElems → List JTree → List JTree
  | JElems.enil, acc => acc
  | JElems.econs v rest, acc => collectTermSourceRefsE rest (collectTermSourceRefsT v acc)
end

/-- `_check_object_usage`: warn per declared identifier that never occurs
among the collected reference identifiers. -/
def checkObjectUsage (sectionLabel : String) (objectsDeclared idRefs : List JTree)
    (report : ValidationReport) : ValidationReport :=
  objectsDeclared.foldl
    (fun rep objRef =>
      if !(idRefs.contains objRef) then
        rep.warn ("Object reference " ++ jShow objRef ++ " not used anywhere in " ++
          sectionLabel)
      else rep)
    report

/-- The per-study section label: the study identifier when non-empty, else
an auto-calculated location string. -/
def studySectionLabel (i : Nat) (ident : JTree) : String :=
  if ident == JTree.str "" then
    "study loc " ++ toString (i + 1) ++
      " (study location autocalculated by validator - Study ID in JSON not present)"
  else jShow ident

/-- The declared-protocols usage pass (per study, against the whole tree's
reference ids). -/
def checkProtocolsUsage (t : JTree) (report : ValidationReport) :
    Except VErr ValidationReport := do
  let studies ← jList (← jGet t "studies")
  let r ← studies.foldlM
    (fun (acc : Nat × ValidationReport) study => do
      let prots ← jList (← jGet study "protocols")
      let protIds ← prots.mapM (fun p => jGet p "@id")
      let ident ← jGet study "identifier"
      pure (acc.1 + 1,
        checkObjectUsage (studySectionLabel acc.1 ident) protIds
          (collectIdRefsT t []) acc.2))
    (0, report)
  pure r.2

/-- The declared-factors usage pass. -/
def checkFactorsUsage (t : JTree) (report : ValidationReport) :
    Except VErr ValidationReport := do
  let studies ← jList (← jGet t "studies")
  let r ← studies.foldlM
    (fun (acc : Nat × ValidationReport) study => do
      let facs ← jList (← jGet study "factors")
      let facIds ← facs.mapM (fun f => jGet f "@id")
      let ident ← jGet study "identifier"
      pure (acc.1 + 1,
        checkObjectUsage (studySectionLabel acc.1 ident) facIds
          (collectIdRefsT t []) acc.2))
    (0, report)
  pure r.2

/-- The declared-term-sources usage pass. -/
def checkTermSourceUsage (t : JTree) (report : ValidationReport) :
    Except VErr ValidationReport := do
  let oss ← jList (← jGet t "ontologySourceReferences")
  let names ← oss.mapM (fun os => jGet os "name")
  pure (checkObjectUsage "investigation (term source check)" names
    (collectTermSourceRefsT t []) report)

/-- The data-file existence pass: every assay's `dataFiles` entry goes to
the external filesystem check with the report file's directory context. -/
def checkDataFilesAll (ext : Externals) (t : JTree) (report : ValidationReport) :
    Except VErr ValidationReport := do
  let dirContext := ext.dirName report.fileName
  let studies ← jList (← jGet t "studies")
  studies.foldlM
    (fun rep study => do
      let assays ← jList (← jGet study "assays")
      assays.foldlM
        (fun rep assay => do
          pure (ext.checkDataFiles (← jGet assay "dataFiles") dirContext rep))
        rep)
    report

/-- `validate_isajson`: schema check (raising on failure), then every
structural check in source order, accumulating into the one report; the
secondary load-and-link pass appends its findings last. -/
def validateIsajson (ext : Externals) (t : JTree) (report : ValidationReport) :
    Except VErr ValidationReport := do
  if ext.schemaOk t then
    let r1 ← checkFilenames t report
    let osr ← checkOntologySources t r1
    let r3 ← checkDateFormats ext t osr.2
    let r4 := checkTermSourceRefsT t osr.1 r3
    let r5 ← checkPubmedIds ext t r4
    let r6 ← checkDois ext t r5
    let r7 ← checkProtocolNames t r6
    let r8 ← checkProtocolParameterNames t r7
    let r9 ← checkStudyFactorNames t r8
    let r10 := checkObjectRefsT t (collectObjectRefsT t []) r9
    let r11 ← checkProtocolsUsage t r10
    let r12 ← checkFactorsUsage t r11
    let r13 ← checkTermSourceUsage t r12
    let r14 ← checkDataFilesAll ext t r13
    pure (ext.secondaryLoadPass t r14)
  else Except.error VErr.schemaError

/-! ## Claim C8 -/

/-- C8: the structural validator is a pure function of the document tree
and its external collaborators — it never mutates the tree — so two runs on
the same document, each against a fresh report for the same file, produce
reports with identical warning and error multisets (or raise the same
schema failure). -/
theorem C8_validator_deterministic :
    ∀ (ext : Externals) (t : JTree) (fileName : String)
      (r1 r2 : Except VErr ValidationReport),
      validateIsajson ext t (emptyReport fileName) = r1 →
      validateIsajson ext t (emptyReport fileName) = r2 →
      r1.map (fun r => ((r.warnings : Multiset String), (r.errors : Multiset String))) =
        r2.map (fun r => ((r.warnings : Multiset String), (r.errors : Multiset String))) := by
  intro ext t fileName r1 r2 h1 h2
  rw [← h1, ← h2]

def extConst : Externals :=
  { schemaOk := fun _ => true,
    checkIso8601Date := fun _ r => r,
    checkPubmedId := fun _ r => r,
    checkDoi := fun _ r => r,
    checkDataFiles := fun _ _ r => r,
    dirName := fun s => s,
    secondaryLoadPass := fun _ r => r }

/-- C8 (witness): two runs over `tC7` with pass-through externals give the
same warning/error multisets. -/
theorem C8_validator_deterministic_witness :
    (validateIsajson extConst tC7 (emptyReport "i.json")).map
        (fun r => ((r.warnings : Multiset String), (r.errors : Multiset String))) =
      (validateIsajson extConst tC7 (emptyReport "i.json")).map
        (fun r => ((r.warnings : Multiset String), (r.errors : Multiset String))) :=
  C8_validator_deterministic extConst tC7 "i.json"
    (validateIsajson extConst tC7 (emptyReport "i.json"))
    (validateIsajson extConst tC7 (emptyReport "i.json")) rfl rfl
